import Mathlib

/-!
Shallow embedding of the `agent-scaling-laws` repository core:
the five coordination-architecture simulators
(`architectures/single_agent.py`, `independent.py`, `centralized.py`,
`decentralized.py`, `hybrid.py`) and the architecture selector
(`models/architecture_selector.py`).

Python values are modelled by `PyVal F`, where the payload type `F`
stands for the (otherwise opaque) Python callables and an application
oracle `App F` gives their behaviour: calling a callable either returns
a value or raises, modelled as `Except String (PyVal F)`.  Stateful
Python objects become explicit state records threaded through the
operations.  Machine integers in the source are plain Python ints used
as non-negative token counters, modelled as `Nat`.
-/

/-- Universe of Python values flowing through the simulators: strings,
ints, booleans, `None`, lists/tuples, dicts, `Message` objects and
callables (abstracted by the parameter `F`). -/
inductive PyVal (F : Type) where
  | vstr (s : String)
  | vint (n : Int)
  | vbool (b : Bool)
  | vnone
  | vlist (items : List (PyVal F))
  | vdict (entries : List (String × PyVal F))
  | vmsg (sender_id : String) (content : PyVal F) (message_type : String)
      (meta : List (String × PyVal F))
  | vfun (f : F)

/-- A Python dict used as an execution context: association list keyed by
strings (insertion order preserved, as in Python dicts). -/
def Ctx (F : Type) : Type := List (String × PyVal F)

/-- Behaviour of the opaque callables: calling one with a context either
returns a value (`Except.ok`) or raises (`Except.error` with the
exception's string rendering). -/
def App (F : Type) : Type := F → Ctx F → Except String (PyVal F)

/-- `{**d, k: v}` on a Python dict: overwrite the value in place if the
key exists, else append the new binding at the end. -/
def dictSet {F : Type} (d : List (String × PyVal F)) (k : String) (v : PyVal F) :
    List (String × PyVal F) :=
  if d.any (fun p => p.1 == k) then
    d.map (fun p => if p.1 == k then (k, v) else p)
  else
    d ++ [(k, v)]

/-- `base.Message`: immutable record appended to logs. -/
structure Message (F : Type) where
  sender_id : String
  content : PyVal F
  message_type : String
  metadata : List (String × PyVal F)

/-- View a `Message` object as a Python value (so it can be stored inside
contexts handed to tasks, as `peer_messages` / `team_messages` are). -/
def msgToVal {F : Type} (m : Message F) : PyVal F :=
  .vmsg m.sender_id m.content m.message_type m.metadata

/-- `base.TaskResult`: result record of every execution step.  Python's
`output=None` is `PyVal.vnone`; a missing `error` is `Option.none`.
Field defaults are the dataclass defaults. -/
structure TaskResult (F : Type) where
  success : Bool
  output : PyVal F
  tokens_used : Nat := 0
  error : Option String := none
  metadata : List (String × PyVal F) := []

/-- The `capabilities` configuration mapping, restricted to the numeric
knobs the core reads (`tokens_per_task`, `coordination_tokens_per_task`,
`communication_tokens_per_message`, `coordination_rounds`,
`strategy_tokens`, `team_comm_tokens`, `aggregation_tokens`). -/
def Caps : Type := List (String × Nat)

/-- `capabilities.get(key, default)`. -/
def capGet : Caps → String → Nat → Nat
  | [], _, d => d
  | (k, v) :: rest, key, d => if k == key then v else capGet rest key d

/-- Mutable state of a `base.Agent` instance (`agent_id`, `capabilities`,
the three counters and the message log). -/
structure AgentState (F : Type) where
  agent_id : String
  capabilities : Caps
  tokens_used : Nat
  tasks_completed : Nat
  errors_count : Nat
  message_history : List (Message F)

/-- `Agent.__init__`: counters zeroed, empty log. -/
def initAgent {F : Type} (id : String) (caps : Caps) : AgentState F :=
  { agent_id := id, capabilities := caps, tokens_used := 0,
    tasks_completed := 0, errors_count := 0, message_history := [] }

/-- `callable(task)` in the embedding: only `vfun` values are callable. -/
def isCallable {F : Type} : PyVal F → Bool
  | .vfun _ => true
  | _ => false

/-- Is this value Python's `None`? (`task is None` checks.) -/
def isNoneVal {F : Type} : PyVal F → Bool
  | .vnone => true
  | _ => false

/-- The body of the `try` block of `SingleAgent.execute_task`: if the
task is callable, call it (possibly raising); otherwise the task value
itself is the result and nothing can raise. -/
def attempt {F : Type} (app : App F) (task : PyVal F) (ctx : Ctx F) :
    Except String (PyVal F) :=
  match task with
  | .vfun f => app f ctx
  | v => .ok v

/-- `SingleAgent.execute_task` (single_agent.py): run the task with
`context or {}`; on success charge `tokens_per_task` (default 100) to
the agent and report it on the result; on an exception increment
`errors_count` and return a failure result with `output=None` and
`error=str(e)`, charging no tokens. -/
def SingleAgent.execute_task {F : Type} (app : App F) (st : AgentState F)
    (task : PyVal F) (context : Option (Ctx F)) :
    TaskResult F × AgentState F :=
  match attempt app task (context.getD []) with
  | .ok result =>
      let tokens := capGet st.capabilities "tokens_per_task" 100
      ({ success := true, output := result, tokens_used := tokens,
         error := none,
         metadata := [("architecture", .vstr "single"),
                      ("agent_id", .vstr st.agent_id)] },
       { st with tokens_used := st.tokens_used + tokens,
                 tasks_completed := st.tasks_completed + 1 })
  | .error e =>
      ({ success := false, output := .vnone, tokens_used := 0,
         error := some e,
         metadata := [("architecture", .vstr "single"),
                      ("agent_id", .vstr st.agent_id)] },
       { st with errors_count := st.errors_count + 1 })

/-- Sum of the `tokens_used` counters of a list of child agents
(`total_agent_tokens` in the composites' `get_metrics`). -/
def agentsTokens {F : Type} (l : List (AgentState F)) : Nat :=
  (l.map (fun a => a.tokens_used)).sum

/-- Sum of the `tokens_used` fields of a list of task results. -/
def resultsTokens {F : Type} (l : List (TaskResult F)) : Nat :=
  (l.map (fun r => r.tokens_used)).sum

/-! ## Centralized composite (centralized.py) -/

/-- State of a `CentralizedMultiAgent` instance: coordinator counters,
the owned worker agents and the coordinator-local `global_state`. -/
structure CentralizedState (F : Type) where
  agent_id : String
  capabilities : Caps
  num_agents : Nat
  agents : List (AgentState F)
  global_state : List (String × PyVal F)
  tokens_used : Nat
  tasks_completed : Nat
  errors_count : Nat

/-- `CentralizedMultiAgent.__init__`: workers named
`{agent_id}_worker_{i}` sharing the capabilities mapping. -/
def initCentralized {F : Type} (id : String) (numAgents : Nat) (caps : Caps) :
    CentralizedState F :=
  { agent_id := id, capabilities := caps, num_agents := numAgents,
    agents := (List.range numAgents).map
      (fun i => initAgent (id ++ "_worker_" ++ toString i) caps),
    global_state := [], tokens_used := 0, tasks_completed := 0,
    errors_count := 0 }

/-- `CentralizedMultiAgent._decompose_task`: a list/tuple task is
round-robined over workers (item `i` to worker `i % num_agents`), any
other task goes to worker 0.  Workers are identified by index (the
Python code pairs the worker objects themselves).  For `num_agents = 0`
the Python code raises (`i % 0` / `self.agents[0]`); the embedding is
total and such states never arise from the constructor with workers. -/
def centralizedDecompose {F : Type} (st : CentralizedState F) (task : PyVal F) :
    List (Nat × PyVal F) :=
  match task with
  | .vlist items => items.enum.map (fun p => (p.1 % st.num_agents, p.2))
  | t => [(0, t)]

/-- One iteration of the loop in
`CentralizedMultiAgent._coordinate_execution`: enrich the context with
`global_state`, run the assigned worker, record the result, write a
successful output into `global_state` under `result_{agent_id}` and
charge `coordination_tokens_per_task` (default 10) to the coordinator
regardless of the outcome. -/
def coordStep {F : Type} (app : App F) (context : Option (Ctx F))
    (acc : CentralizedState F × List (TaskResult F)) (a : Nat × PyVal F) :
    CentralizedState F × List (TaskResult F) :=
  let st := acc.1
  match st.agents.get? a.1 with
  | none => acc
  | some ag =>
      let enriched := dictSet (context.getD []) "global_state" (.vdict st.global_state)
      let p := SingleAgent.execute_task app ag a.2 (some enriched)
      let st1 := { st with agents := st.agents.set a.1 p.2 }
      let st2 :=
        if p.1.success then
          { st1 with global_state :=
              dictSet st1.global_state ("result_" ++ p.2.agent_id) p.1.output }
        else st1
      let coord := capGet st2.capabilities "coordination_tokens_per_task" 10
      ({ st2 with tokens_used := st2.tokens_used + coord }, acc.2 ++ [p.1])

/-- `CentralizedMultiAgent._coordinate_execution`: sequential fold of
`coordStep` over the assignments. -/
def coordinateExecution {F : Type} (app : App F) (st : CentralizedState F)
    (assignments : List (Nat × PyVal F)) (context : Option (Ctx F)) :
    CentralizedState F × List (TaskResult F) :=
  assignments.foldl (coordStep app context) (st, [])

/-- `CentralizedMultiAgent._aggregate_results`: total tokens are the sum
of the per-subtask result tokens plus the coordinator's (cumulative)
`tokens_used` counter; successful outputs are collected in assignment
order, a single one is returned directly, several as a list; with no
success the aggregate fails with "All subtasks failed". -/
def aggregateResults {F : Type} (st : CentralizedState F)
    (results : List (TaskResult F)) : TaskResult F × CentralizedState F :=
  let successful := results.filter (fun r => r.success)
  let total := resultsTokens results + st.tokens_used
  match successful with
  | [] =>
      ({ success := false, output := .vnone, tokens_used := total,
         error := some "All subtasks failed",
         metadata := [("architecture", .vstr "centralized"),
                      ("num_agents", .vint st.num_agents)] },
       { st with errors_count := st.errors_count + results.length })
  | _ =>
      let outputs := successful.map (fun r => r.output)
      let finalOutput := match outputs with
        | [o] => o
        | os => PyVal.vlist os
      ({ success := true, output := finalOutput, tokens_used := total,
         error := none,
         metadata := [("architecture", .vstr "centralized"),
                      ("num_agents", .vint st.num_agents),
                      ("successful_subtasks", .vint successful.length),
                      ("failed_subtasks", .vint (results.length - successful.length)),
                      ("coordination_overhead", .vint st.tokens_used)] },
       { st with tasks_completed := st.tasks_completed + successful.length })

/-- `CentralizedMultiAgent.execute_task`: reset `global_state` (the
coordinator's token counter is NOT reset), decompose, coordinate,
aggregate. -/
def CentralizedMultiAgent.execute_task {F : Type} (app : App F)
    (st : CentralizedState F) (task : PyVal F) (context : Option (Ctx F)) :
    TaskResult F × CentralizedState F :=
  let st0 := { st with global_state := [] }
  let assignments := centralizedDecompose st0 task
  let p := coordinateExecution app st0 assignments context
  aggregateResults p.1 p.2

/-! ## Decentralized composite (decentralized.py) -/

/-- State of a `DecentralizedMultiAgent` instance: peer agents, the
shared message pool and the composite's counters. -/
structure DecentralizedState (F : Type) where
  agent_id : String
  capabilities : Caps
  num_agents : Nat
  agents : List (AgentState F)
  shared_messages : List (Message F)
  tokens_used : Nat
  tasks_completed : Nat
  errors_count : Nat

/-- `DecentralizedMultiAgent.__init__`: peers named `{agent_id}_peer_{i}`. -/
def initDecentralized {F : Type} (id : String) (numAgents : Nat) (caps : Caps) :
    DecentralizedState F :=
  { agent_id := id, capabilities := caps, num_agents := numAgents,
    agents := (List.range numAgents).map
      (fun i => initAgent (id ++ "_peer_" ++ toString i) caps),
    shared_messages := [], tokens_used := 0, tasks_completed := 0,
    errors_count := 0 }

/-- `DecentralizedMultiAgent._broadcast_message`: store the message once,
charge `communication_tokens_per_message * (num_agents - 1)` to the
composite, and append the message to every other peer's log. -/
def broadcastMessage {F : Type} (st : DecentralizedState F) (senderId : String)
    (m : Message F) : DecentralizedState F :=
  let st1 := { st with shared_messages := st.shared_messages ++ [m] }
  let comm := capGet st1.capabilities "communication_tokens_per_message" 5
  let st2 := { st1 with tokens_used := st1.tokens_used + comm * (st1.num_agents - 1) }
  { st2 with agents := st2.agents.map (fun ag =>
      if ag.agent_id == senderId then ag
      else { ag with message_history := ag.message_history ++ [m] }) }

/-- One iteration of the inner loop of
`DecentralizedMultiAgent._peer_to_peer_coordination`: peer `i` executes
the task with a context carrying the round index and the pool messages
of the *other* peers; a success is wrapped as a `task_result` message and
broadcast. -/
def peerStep {F : Type} (app : App F) (task : PyVal F) (context : Option (Ctx F))
    (roundIdx : Nat) (acc : DecentralizedState F × List (TaskResult F)) (i : Nat) :
    DecentralizedState F × List (TaskResult F) :=
  let st := acc.1
  match st.agents.get? i with
  | none => acc
  | some ag =>
      let peerCtx := dictSet
        (dictSet (context.getD []) "round" (.vint roundIdx))
        "peer_messages"
        (.vlist ((st.shared_messages.filter
            (fun m => m.sender_id != ag.agent_id)).map msgToVal))
      let p := SingleAgent.execute_task app ag task (some peerCtx)
      let st1 := { st with agents := st.agents.set i p.2 }
      let st2 :=
        if p.1.success then
          broadcastMessage st1 p.2.agent_id
            { sender_id := p.2.agent_id, content := p.1.output,
              message_type := "task_result",
              metadata := [("round", .vint roundIdx)] }
        else st1
      (st2, acc.2 ++ [p.1])

/-- `DecentralizedMultiAgent._peer_to_peer_coordination`: the fixed
number of rounds (`coordination_rounds`, default 2), each round running
every peer once; all round results are pooled in production order. -/
def peerToPeerCoordination {F : Type} (app : App F) (st : DecentralizedState F)
    (task : PyVal F) (context : Option (Ctx F)) :
    DecentralizedState F × List (TaskResult F) :=
  let numRounds := capGet st.capabilities "coordination_rounds" 2
  (List.range numRounds).foldl
    (fun acc roundIdx =>
      (List.range acc.1.agents.length).foldl (peerStep app task context roundIdx) acc)
    (st, [])

/-- `DecentralizedMultiAgent._consensus_aggregation`: last successful
result in pool order wins; with no success the aggregate fails with
"No agents reached consensus".  Total tokens are the pooled result
tokens plus the composite's (cumulative) counter. -/
def consensusAggregation {F : Type} (st : DecentralizedState F)
    (results : List (TaskResult F)) : TaskResult F × DecentralizedState F :=
  let successful := results.filter (fun r => r.success)
  let total := resultsTokens results + st.tokens_used
  match successful.getLast? with
  | none =>
      ({ success := false, output := .vnone, tokens_used := total,
         error := some "No agents reached consensus",
         metadata := [("architecture", .vstr "decentralized"),
                      ("num_agents", .vint st.num_agents)] },
       { st with errors_count := st.errors_count + results.length })
  | some last =>
      ({ success := true, output := last.output, tokens_used := total,
         error := none,
         metadata := [("architecture", .vstr "decentralized"),
                      ("num_agents", .vint st.num_agents),
                      ("successful_results", .vint successful.length),
                      ("failed_results", .vint (results.length - successful.length)),
                      ("messages_exchanged", .vint st.shared_messages.length),
                      ("communication_overhead", .vint st.tokens_used)] },
       { st with tasks_completed := st.tasks_completed + successful.length })

/-- `DecentralizedMultiAgent.execute_task`: reset the shared message pool
(the composite's token counter is NOT reset), coordinate, aggregate. -/
def DecentralizedMultiAgent.execute_task {F : Type} (app : App F)
    (st : DecentralizedState F) (task : PyVal F) (context : Option (Ctx F)) :
    TaskResult F × DecentralizedState F :=
  let st0 := { st with shared_messages := [] }
  let p := peerToPeerCoordination app st0 task context
  consensusAggregation p.1 p.2

/-! ## Hybrid composite (hybrid.py) -/

/-- State of a `HybridMultiAgent` instance: teams of workers, the
coordinator's `global_state`, per-team message buffers (indexed by team
position) and the coordinator's counters. -/
structure HybridState (F : Type) where
  agent_id : String
  capabilities : Caps
  num_agents : Nat
  team_size : Nat
  num_teams : Nat
  teams : List (List (AgentState F))
  global_state : List (String × PyVal F)
  team_messages : List (List (Message F))
  tokens_used : Nat
  tasks_completed : Nat
  errors_count : Nat

/-- `HybridMultiAgent.__init__`: `max(1, num_agents // team_size)` teams
of exactly `team_size` workers named `{agent_id}_team{t}_agent{a}`.
For `team_size = 0` the Python constructor raises `ZeroDivisionError`,
so no instance with `team_size = 0` ever exists. -/
def initHybrid {F : Type} (id : String) (numAgents teamSize : Nat) (caps : Caps) :
    HybridState F :=
  let numTeams := max 1 (numAgents / teamSize)
  { agent_id := id, capabilities := caps, num_agents := numAgents,
    team_size := teamSize, num_teams := numTeams,
    teams := (List.range numTeams).map (fun t =>
      (List.range teamSize).map (fun a =>
        initAgent (id ++ "_team" ++ toString t ++ "_agent" ++ toString a) caps)),
    global_state := [],
    team_messages := List.replicate numTeams [],
    tokens_used := 0, tasks_completed := 0, errors_count := 0 }

/-- `HybridMultiAgent._strategic_decomposition`: charge `strategy_tokens`
(default 20); a list/tuple task is cut into `num_teams` contiguous
chunks of `max(1, len // num_teams)` items (the last chunk absorbs the
remainder, empty slices for surplus teams); any other task goes to the
first team and the rest receive `None` (`vnone`). -/
def strategicDecomposition {F : Type} (st : HybridState F) (task : PyVal F) :
    List (PyVal F) × HybridState F :=
  let st1 := { st with tokens_used :=
      st.tokens_used + capGet st.capabilities "strategy_tokens" 20 }
  match task with
  | .vlist items =>
      let chunk := max 1 (items.length / st1.num_teams)
      (((List.range st1.num_teams).map (fun i =>
          let start := i * chunk
          let stop := if i < st1.num_teams - 1 then start + chunk else items.length
          PyVal.vlist ((items.drop start).take (stop - start)))), st1)
  | t => ([t] ++ List.replicate (st1.num_teams - 1) .vnone, st1)

/-- One member of the loop in `HybridMultiAgent._team_coordination`:
member `j` of team `tIdx` executes the team task with a context carrying
the team index, the team's current message buffer and `global_state`; a
success appends a `team_result` message to the buffer and charges
`team_comm_tokens` (default 3) to the coordinator. -/
def teamMemberStep {F : Type} (app : App F) (tIdx : Nat) (teamTask : PyVal F)
    (context : Option (Ctx F)) (acc : HybridState F × List (TaskResult F))
    (j : Nat) : HybridState F × List (TaskResult F) :=
  let st := acc.1
  match (st.teams.getD tIdx []).get? j with
  | none => acc
  | some ag =>
      let teamCtx := dictSet (dictSet
        (dictSet (context.getD []) "team_idx" (.vint tIdx))
        "team_messages"
        (.vlist ((st.team_messages.getD tIdx []).map msgToVal)))
        "global_state" (.vdict st.global_state)
      let p := SingleAgent.execute_task app ag teamTask (some teamCtx)
      let st1 := { st with teams :=
          (st.teams.set tIdx ((st.teams.getD tIdx []).set j p.2)) }
      let st2 :=
        if p.1.success then
          { st1 with
            team_messages := st1.team_messages.set tIdx
              ((st1.team_messages.getD tIdx []) ++
                [{ sender_id := p.2.agent_id, content := p.1.output,
                   message_type := "team_result",
                   metadata := [("team_idx", .vint tIdx)] }]),
            tokens_used := st1.tokens_used +
              capGet st1.capabilities "team_comm_tokens" 3 }
        else st1
      (st2, acc.2 ++ [p.1])

/-- `HybridMultiAgent._team_coordination`: a team with task `None`
returns a zero-cost `no_task` success; otherwise every member runs in
turn and the team result is the last successful member's output with the
sum of the member result tokens, or a "Team failed to complete task"
failure (with the dataclass default `tokens_used = 0`). -/
def teamCoordination {F : Type} (app : App F) (st : HybridState F) (tIdx : Nat)
    (teamTask : PyVal F) (context : Option (Ctx F)) :
    TaskResult F × HybridState F :=
  if isNoneVal teamTask then
    ({ success := true, output := .vnone, tokens_used := 0, error := none,
       metadata := [("team_idx", .vint tIdx), ("status", .vstr "no_task")] },
     st)
  else
    let p := (List.range (st.teams.getD tIdx []).length).foldl
      (teamMemberStep app tIdx teamTask context) (st, [])
    let st1 := p.1
    let teamResults := p.2
    let successful := teamResults.filter (fun r => r.success)
    match successful.getLast? with
    | some last =>
        ({ success := true, output := last.output,
           tokens_used := resultsTokens teamResults, error := none,
           metadata := [("team_idx", .vint tIdx),
                        ("team_size", .vint (st1.teams.getD tIdx []).length),
                        ("successful_members", .vint successful.length)] },
         st1)
    | none =>
        ({ success := false, output := .vnone, tokens_used := 0,
           error := some "Team failed to complete task",
           metadata := [("team_idx", .vint tIdx)] },
         st1)

/-- One iteration of the team loop in `HybridMultiAgent.execute_task`:
run the team, record its result and on success write the output into
`global_state` under `team_{tIdx}_result`. -/
def hybridTeamStep {F : Type} (app : App F) (context : Option (Ctx F))
    (acc : HybridState F × List (TaskResult F)) (a : Nat × PyVal F) :
    HybridState F × List (TaskResult F) :=
  let p := teamCoordination app acc.1 a.1 a.2 context
  let st1 :=
    if p.1.success then
      { p.2 with global_state := (dictSet p.2.global_state
          ("team_" ++ toString a.1 ++ "_result") p.1.output) }
    else p.2
  (st1, acc.2 ++ [p.1])

/-- `HybridMultiAgent._aggregate_team_results`: charge
`aggregation_tokens` (default 15); teams count as successful only when
they succeeded AND their output `is not None`; one successful output is
returned directly, several as a list, none yields "All teams failed".
Total tokens are the team-result tokens plus the coordinator's
(cumulative) counter. -/
def aggregateTeamResults {F : Type} (st : HybridState F)
    (teamResults : List (TaskResult F)) : TaskResult F × HybridState F :=
  let st1 := { st with tokens_used :=
      st.tokens_used + capGet st.capabilities "aggregation_tokens" 15 }
  let successfulTeams := teamResults.filter
    (fun r => r.success && !(isNoneVal r.output))
  let total := resultsTokens teamResults + st1.tokens_used
  match successfulTeams with
  | [] =>
      ({ success := false, output := .vnone, tokens_used := total,
         error := some "All teams failed",
         metadata := [("architecture", .vstr "hybrid"),
                      ("num_teams", .vint st1.num_teams)] },
       { st1 with errors_count := st1.errors_count + teamResults.length })
  | _ =>
      let outputs := successfulTeams.map (fun r => r.output)
      let finalOutput := match outputs with
        | [o] => o
        | os => PyVal.vlist os
      ({ success := true, output := finalOutput, tokens_used := total,
         error := none,
         metadata := [("architecture", .vstr "hybrid"),
                      ("num_teams", .vint st1.num_teams),
                      ("team_size", .vint st1.team_size),
                      ("successful_teams", .vint successfulTeams.length),
                      ("failed_teams", .vint (teamResults.length - successfulTeams.length)),
                      ("coordination_overhead", .vint st1.tokens_used)] },
       { st1 with tasks_completed := st1.tasks_completed + successfulTeams.length })

/-- `HybridMultiAgent.execute_task`: reset `global_state` and the team
message buffers (the coordinator's token counter is NOT reset), run the
strategic decomposition, the per-team coordination (over
`zip(self.teams, team_tasks)`, both of length `num_teams`) and the
central aggregation. -/
def HybridMultiAgent.execute_task {F : Type} (app : App F)
    (st : HybridState F) (task : PyVal F) (context : Option (Ctx F)) :
    TaskResult F × HybridState F :=
  let st0 := { st with global_state := [],
                       team_messages := List.replicate st.num_teams [] }
  let q := strategicDecomposition st0 task
  let teamTasks := (q.1.take st0.teams.length).enum
  let p := teamTasks.foldl (hybridTeamStep app context) (q.2, [])
  aggregateTeamResults p.1 p.2

/-! ## Independent composite (independent.py) -/

/-- State of an `IndependentMultiAgent` instance. -/
structure IndependentState (F : Type) where
  agent_id : String
  capabilities : Caps
  num_agents : Nat
  agents : List (AgentState F)
  tokens_used : Nat
  tasks_completed : Nat
  errors_count : Nat

/-- `IndependentMultiAgent.__init__`: children named `{agent_id}_agent_{i}`. -/
def initIndependent {F : Type} (id : String) (numAgents : Nat) (caps : Caps) :
    IndependentState F :=
  { agent_id := id, capabilities := caps, num_agents := numAgents,
    agents := (List.range numAgents).map
      (fun i => initAgent (id ++ "_agent_" ++ toString i) caps),
    tokens_used := 0, tasks_completed := 0, errors_count := 0 }

/-- One child of `IndependentMultiAgent.execute_task`'s collection loop:
record the result, bump `tasks_completed` or `errors_count` and collect
the error string of a failure.  The Python code runs the children in a
thread pool and collects in completion order; completion order permutes
only the order of the collected results and error strings, so the
embedding uses submission (index) order. -/
def independentStep {F : Type} (app : App F) (task : PyVal F)
    (context : Option (Ctx F))
    (acc : IndependentState F × List (TaskResult F) × List String) (i : Nat) :
    IndependentState F × List (TaskResult F) × List String :=
  let st := acc.1
  match st.agents.get? i with
  | none => acc
  | some ag =>
      let p := SingleAgent.execute_task app ag task context
      let st1 := { st with agents := st.agents.set i p.2 }
      if p.1.success then
        ({ st1 with tasks_completed := st1.tasks_completed + 1 },
         acc.2.1 ++ [p.1], acc.2.2)
      else
        ({ st1 with errors_count := st1.errors_count + 1 },
         acc.2.1 ++ [p.1], acc.2.2 ++ [p.1.error.getD ""])

/-- Python's `f"{errors}"` rendering of a list of strings. -/
def pyStrListRepr (errs : List String) : String :=
  "[" ++ String.intercalate ", " (errs.map (fun e => "'" ++ e ++ "'")) ++ "]"

/-- `IndependentMultiAgent.execute_task`: run all children on the same
task, add the children's reported tokens to the composite counter, and
aggregate: the first successful result wins, else a failure listing all
child errors. -/
def IndependentMultiAgent.execute_task {F : Type} (app : App F)
    (st : IndependentState F) (task : PyVal F) (context : Option (Ctx F)) :
    TaskResult F × IndependentState F :=
  let p := (List.range st.agents.length).foldl
    (independentStep app task context) (st, [], [])
  let results := p.2.1
  let totalTokens := resultsTokens results
  let st1 := { p.1 with tokens_used := p.1.tokens_used + totalTokens }
  let successful := results.filter (fun r => r.success)
  match successful with
  | best :: _ =>
      ({ success := true, output := best.output, tokens_used := totalTokens,
         error := none,
         metadata := [("architecture", .vstr "independent"),
                      ("num_agents", .vint st1.num_agents),
                      ("successful_agents", .vint successful.length),
                      ("failed_agents", .vint (results.length - successful.length))] },
       st1)
  | [] =>
      ({ success := false, output := .vnone, tokens_used := totalTokens,
         error := some ("All agents failed. Errors: " ++ pyStrListRepr p.2.2),
         metadata := [("architecture", .vstr "independent"),
                      ("num_agents", .vint st1.num_agents)] },
       st1)

/-! ## Architecture selector (models/architecture_selector.py)

The selector's inputs are fractional scalars supplied by the caller;
they are modelled as rationals (Python floats carry decimal literals in
all the code's coefficients).  The score is real-valued because the
hybrid branch uses `np.std`, a square root. -/

/-- `TaskCharacteristics`: five scalars in `[0,1]` (not validated). -/
structure TaskCharacteristics where
  parallelizable : ℚ
  dynamic : ℚ
  sequential : ℚ
  tool_intensive : ℚ
  complexity : ℚ

/-- `AgentCapabilities`. -/
structure AgentCapabilities where
  baseline_accuracy : ℚ
  token_budget : ℤ
  model_capability : ℚ

/-- The five architecture names, in the selector's enumeration order. -/
inductive Arch where
  | single
  | independent
  | centralized
  | decentralized
  | hybrid
deriving DecidableEq, Repr

/-- `np.std` of a three-element list: population standard deviation. -/
noncomputable def npStd3 (a b c : ℝ) : ℝ :=
  let m := (a + b + c) / 3
  Real.sqrt (((a - m) ^ 2 + (b - m) ^ 2 + (c - m) ^ 2) / 3)

/-- The `base` constant of `self.architecture_modifiers[architecture]`. -/
def archBase : Arch → ℚ
  | .single => 1
  | .independent => 7/10
  | .centralized => 9/10
  | .decentralized => 85/100
  | .hybrid => 88/100

/-- `ArchitectureSelector._calculate_architecture_score`, with the
instance constants `saturation_threshold = 0.45`,
`saturation_beta = -0.408` and the modifier table inlined: start from
the base constant; if `baseline_accuracy > 0.45` add
`saturation_beta * (baseline_accuracy - 0.45)` to every non-single
architecture; add the architecture-specific terms; subtract `0.2` from
every non-single architecture when `token_budget < 1000`; finally scale
by `0.8 + 0.4 * model_capability`. -/
noncomputable def calculate_architecture_score (arch : Arch)
    (t : TaskCharacteristics) (c : AgentCapabilities) : ℝ :=
  let score0 : ℝ := (archBase arch : ℚ)
  let score1 :=
    if (45/100 : ℚ) < c.baseline_accuracy then
      if arch ≠ .single then
        score0 + (-408/1000 : ℝ) * ((c.baseline_accuracy : ℝ) - 45/100)
      else score0
    else score0
  let score2 :=
    match arch with
    | .single =>
        let s := score1 + (3/10 : ℝ) * (t.sequential : ℝ)
        if t.complexity < 1/2 then s + 2/10 else s
    | .independent =>
        score1 + (4/10 : ℝ) * (t.parallelizable : ℝ)
          + (-172/1000 : ℝ) * (1 - (c.baseline_accuracy : ℝ))
    | .centralized =>
        score1 + (809/1000 : ℝ) * (t.parallelizable : ℝ)
          + (-2/10 : ℝ) * (t.tool_intensive : ℝ) + (-44/1000 : ℝ)
    | .decentralized =>
        let s := score1 + (92/1000 : ℝ) * (t.dynamic : ℝ)
          + (-15/100 : ℝ) * (1 - (t.parallelizable : ℝ))
        if (6/10 : ℚ) < t.sequential then s - 4/10 else s
    | .hybrid =>
        score1 + (3/10 : ℝ) * (t.complexity : ℝ)
          + (15/100 : ℝ) *
            (1 - npStd3 (t.parallelizable : ℝ) (t.dynamic : ℝ) (t.sequential : ℝ))
  let score3 :=
    if c.token_budget < 1000 ∧ arch ≠ .single then score2 - 2/10 else score2
  score3 * (8/10 + (4/10 : ℝ) * (c.model_capability : ℝ))

/-- The iteration order of the selector's `architectures` list /
`scores` dict: `single, independent, centralized, decentralized,
hybrid`. -/
def archOrder : List Arch :=
  [.single, .independent, .centralized, .decentralized, .hybrid]

/-- `ArchitectureSelector.predict_all_scores`: the name-to-score mapping
in enumeration order. -/
noncomputable def predict_all_scores (t : TaskCharacteristics)
    (c : AgentCapabilities) : List (Arch × ℝ) :=
  archOrder.map (fun a => (a, calculate_architecture_score a t c))

open Classical in
/-- `ArchitectureSelector.select_architecture`:
`max(scores.items(), key=lambda x: x[1])[0]` — fold over the entries
keeping the current entry only when the candidate's score is strictly
greater, so the first maximal entry survives. -/
noncomputable def select_architecture (t : TaskCharacteristics)
    (c : AgentCapabilities) : Arch :=
  match predict_all_scores t c with
  | [] => .single
  | x :: xs => (xs.foldl (fun best cand => if best.2 < cand.2 then cand else best) x).1

/-- `a` attains the maximal score among the entries of
`predict_all_scores` on these inputs. -/
def isTopScore (a : Arch) (t : TaskCharacteristics) (c : AgentCapabilities) : Prop :=
  ∀ p ∈ predict_all_scores t c, p.2 ≤ calculate_architecture_score a t c

open Classical in
/-- Modelled from the spec: "`select()` returns the arg-max architecture
name (ties broken by the enumeration order
single→independent→centralized→decentralized→hybrid)" — the first
architecture in enumeration order whose score is greatest among the
entries of `predict_all_scores`. -/
noncomputable def selectSpecFirstArgmax (t : TaskCharacteristics)
    (c : AgentCapabilities) : Arch :=
  if isTopScore .single t c then .single
  else if isTopScore .independent t c then .independent
  else if isTopScore .centralized t c then .centralized
  else if isTopScore .decentralized t c then .decentralized
  else .hybrid

/-! ## Proof infrastructure -/

/-- The §3 invariant on a result record: `error` is non-null iff
`success` is false. -/
def errOk {F : Type} (r : TaskResult F) : Bool :=
  r.error.isSome == !r.success

/-- A task that always succeeds: whatever context it is given, the
`try` body of the executing agent returns normally. -/
def alwaysSucceeds {F : Type} (app : App F) (task : PyVal F) : Prop :=
  ∀ ctx : Ctx F, ∃ v, attempt app task ctx = Except.ok v

/-- Any state invariant is preserved along a fold whose step preserves
it. -/
theorem foldl_pred {σ ι : Type _} (q : σ → Prop) (step : σ → ι → σ)
    (hstep : ∀ s i, q s → q (step s i)) :
    ∀ (l : List ι) (s : σ), q s → q (l.foldl step s) := by
  intro l
  induction l with
  | nil => intro s hs; exact hs
  | cons i tl ih => intro s hs; exact ih (step s i) (hstep s i hs)

/-- Token balance through a fold: if each step adds the same amount to a
state-measure `tok` as it adds to the summed tokens of the collected
results, the whole fold does too. -/
theorem foldl_balance {F : Type} {σ ι : Type _} (tok : σ → Nat)
    (step : σ × List (TaskResult F) → ι → σ × List (TaskResult F))
    (hstep : ∀ p i, tok (step p i).1 + resultsTokens p.2 =
        tok p.1 + resultsTokens (step p i).2) :
    ∀ (l : List ι) (p : σ × List (TaskResult F)),
      tok (l.foldl step p).1 + resultsTokens p.2 =
        tok p.1 + resultsTokens (l.foldl step p).2 := by
  intro l
  induction l with
  | nil => intro p; rfl
  | cons i tl ih =>
      intro p
      have h1 := hstep p i
      have h2 := ih (step p i)
      simp only [List.foldl_cons] at *
      omega

/-- Exact accounting through a fold: a step that, on valid inputs,
preserves an invariant and bumps two state-measures by fixed amounts
yields, over a list of valid inputs, increments proportional to the list
length. -/
theorem foldl_exact {σ ι : Type _} (Inv : σ → Prop) (tokA tokB : σ → Nat)
    (step : σ → ι → σ) (P : ι → Prop) (a b : Nat)
    (hstep : ∀ s i, P i → Inv s → Inv (step s i) ∧
        tokA (step s i) = tokA s + a ∧ tokB (step s i) = tokB s + b) :
    ∀ (l : List ι) (s : σ), (∀ i ∈ l, P i) → Inv s →
      Inv (l.foldl step s) ∧
      tokA (l.foldl step s) = tokA s + l.length * a ∧
      tokB (l.foldl step s) = tokB s + l.length * b := by
  intro l
  induction l with
  | nil => intro s _ hs; exact ⟨hs, by simp, by simp⟩
  | cons i tl ih =>
      intro s hP hs
      obtain ⟨h1, h2, h3⟩ := hstep s i (hP i (List.mem_cons_self i tl)) hs
      obtain ⟨g1, g2, g3⟩ := ih (step s i) (fun j hj => hP j (List.mem_cons_of_mem i hj)) h1
      refine ⟨g1, ?_, ?_⟩
      · rw [List.foldl_cons, g2, h2, List.length_cons]; ring
      · rw [List.foldl_cons, g3, h3, List.length_cons]; ring

/-- Replacing element `i` changes the token sum by the difference of the
old and new entries. -/
theorem agentsTokens_set {F : Type} :
    ∀ (l : List (AgentState F)) (i : Nat) (ag ag' : AgentState F),
      l.get? i = some ag →
      agentsTokens (l.set i ag') + ag.tokens_used =
        agentsTokens l + ag'.tokens_used := by
  intro l
  induction l with
  | nil => intro i ag ag' h; simp at h
  | cons hd tl ih =>
      intro i ag ag' h
      cases i with
      | zero =>
          simp only [List.get?] at h
          cases h
          simp [agentsTokens]
          omega
      | succ j =>
          simp only [List.get?] at h
          have := ih j ag ag' h
          simp [agentsTokens] at *
          omega

/-- A per-entry token-preserving map preserves the token sum. -/
theorem agentsTokens_map {F : Type} (f : AgentState F → AgentState F)
    (h : ∀ a, (f a).tokens_used = a.tokens_used) (l : List (AgentState F)) :
    agentsTokens (l.map f) = agentsTokens l := by
  induction l with
  | nil => rfl
  | cons hd tl ih =>
      simp only [List.map_cons, agentsTokens, List.sum_cons] at *
      rw [h hd, ih]

/-- The single agent adds exactly the result's reported tokens to its
own counter (its other per-result effects summarized alongside). -/
theorem single_tokens {F : Type} (app : App F) (st : AgentState F)
    (task : PyVal F) (context : Option (Ctx F)) :
    (SingleAgent.execute_task app st task context).2.tokens_used =
        st.tokens_used + (SingleAgent.execute_task app st task context).1.tokens_used ∧
      (SingleAgent.execute_task app st task context).2.capabilities = st.capabilities ∧
      (SingleAgent.execute_task app st task context).2.agent_id = st.agent_id ∧
      errOk (SingleAgent.execute_task app st task context).1 = true ∧
      ((SingleAgent.execute_task app st task context).1.success = false →
        (SingleAgent.execute_task app st task context).1.tokens_used = 0) := by
  unfold SingleAgent.execute_task
  rcases h : attempt app task (context.getD []) with e | v <;>
    simp [errOk]

/-- The callable oracle for callable-free instantiations (`F = Empty`
means no callables exist, so the oracle is vacuous). -/
def noFunApp : App Empty := fun f _ => f.elim

/-! ## Claim theorems -/

/-- C7: whenever the single executor's task invocation fails (the `try`
body raises `e`), `execute_task` increments `errors_count` by one,
returns `success=false`, `output=None` (`vnone`), `error=str(e)`,
charges no tokens to the agent counter or to the result, and leaves
`tasks_completed` alone.  (The embedding is a total function returning a
`TaskResult`, so the failure is never re-raised to the caller.) -/
theorem C7_single_agent_failure {F : Type} (app : App F) (st : AgentState F)
    (task : PyVal F) (context : Option (Ctx F)) (e : String)
    (h : attempt app task (context.getD []) = Except.error e) :
    (SingleAgent.execute_task app st task context).2.errors_count = st.errors_count + 1 ∧
    (SingleAgent.execute_task app st task context).1.success = false ∧
    (SingleAgent.execute_task app st task context).1.output = PyVal.vnone ∧
    (SingleAgent.execute_task app st task context).1.error = some e ∧
    (SingleAgent.execute_task app st task context).2.tokens_used = st.tokens_used ∧
    (SingleAgent.execute_task app st task context).1.tokens_used = 0 ∧
    (SingleAgent.execute_task app st task context).2.tasks_completed = st.tasks_completed := by
  simp [SingleAgent.execute_task, h]

/-- Witness for C7 at a concrete failing callable. -/
theorem C7_single_agent_failure_witness :
    attempt (fun (_ : Unit) (_ : Ctx Unit) => Except.error "boom")
        (PyVal.vfun ()) ((none : Option (Ctx Unit)).getD []) = Except.error "boom" ∧
      (SingleAgent.execute_task (fun (_ : Unit) (_ : Ctx Unit) => Except.error "boom")
          (initAgent "single_agent" []) (PyVal.vfun ()) none).1.error = some "boom" :=
  ⟨rfl, (C7_single_agent_failure (fun _ _ => Except.error "boom")
      (initAgent "single_agent" []) (PyVal.vfun ()) none "boom" rfl).2.2.2.1⟩

/-- C8: on success the single executor returns the value produced by
calling the task with `context or {}` (for a non-callable task that
value is the task itself, unchanged), increments `tasks_completed` by
one and adds the configured `tokens_per_task` (default 100) to its
token counter, reporting the same amount on the result. -/
theorem C8_single_agent_success {F : Type} (app : App F) (st : AgentState F)
    (task : PyVal F) (context : Option (Ctx F)) (v : PyVal F)
    (h : attempt app task (context.getD []) = Except.ok v) :
    (SingleAgent.execute_task app st task context).1.success = true ∧
    (SingleAgent.execute_task app st task context).1.output = v ∧
    (SingleAgent.execute_task app st task context).2.tasks_completed = st.tasks_completed + 1 ∧
    (SingleAgent.execute_task app st task context).2.tokens_used =
      st.tokens_used + capGet st.capabilities "tokens_per_task" 100 ∧
    (SingleAgent.execute_task app st task context).1.tokens_used =
      capGet st.capabilities "tokens_per_task" 100 ∧
    (isCallable task = false → attempt app task (context.getD []) = Except.ok task) := by
  refine ⟨?_, ?_, ?_, ?_, ?_, ?_⟩
  case refine_6 =>
    intro hc
    cases task <;> simp only [attempt] <;> simp [isCallable] at hc ⊢
  all_goals simp [SingleAgent.execute_task, h]

/-- Witness for C8 at a concrete non-callable task (which is both a
successful invocation and a value passed through unchanged). -/
theorem C8_single_agent_success_witness :
    attempt noFunApp (PyVal.vstr "t") ((none : Option (Ctx Empty)).getD []) =
        Except.ok (PyVal.vstr "t") ∧
      isCallable (PyVal.vstr "t" : PyVal Empty) = false ∧
      (SingleAgent.execute_task noFunApp (initAgent "single_agent" [])
          (PyVal.vstr "t") none).1.output = PyVal.vstr "t" ∧
      (SingleAgent.execute_task noFunApp (initAgent "single_agent" [])
          (PyVal.vstr "t") none).2.tokens_used = 0 + capGet [] "tokens_per_task" 100 :=
  ⟨rfl, rfl,
    (C8_single_agent_success noFunApp (initAgent "single_agent" [])
        (PyVal.vstr "t") none (PyVal.vstr "t") rfl).2.1,
    (C8_single_agent_success noFunApp (initAgent "single_agent" [])
        (PyVal.vstr "t") none (PyVal.vstr "t") rfl).2.2.2.1⟩

/-- C2: concrete scenario — a fresh centralized composite with 3
workers, `coordination_tokens_per_task=5` and `tokens_per_task=10`,
executed on `["task1","task2","task3"]`, succeeds with the 3-element
output list in assignment order, agent-side token total 30,
coordination overhead 15 and result `tokens_used` 45. -/
theorem C2_centralized_concrete_scenario :
    (CentralizedMultiAgent.execute_task noFunApp
        (initCentralized "centralized_system" 3
          [("tokens_per_task", 10), ("coordination_tokens_per_task", 5)])
        (.vlist [.vstr "task1", .vstr "task2", .vstr "task3"]) none).1.success = true ∧
    (CentralizedMultiAgent.execute_task noFunApp
        (initCentralized "centralized_system" 3
          [("tokens_per_task", 10), ("coordination_tokens_per_task", 5)])
        (.vlist [.vstr "task1", .vstr "task2", .vstr "task3"]) none).1.output =
      PyVal.vlist [.vstr "task1", .vstr "task2", .vstr "task3"] ∧
    agentsTokens (CentralizedMultiAgent.execute_task noFunApp
        (initCentralized "centralized_system" 3
          [("tokens_per_task", 10), ("coordination_tokens_per_task", 5)])
        (.vlist [.vstr "task1", .vstr "task2", .vstr "task3"]) none).2.agents = 30 ∧
    (CentralizedMultiAgent.execute_task noFunApp
        (initCentralized "centralized_system" 3
          [("tokens_per_task", 10), ("coordination_tokens_per_task", 5)])
        (.vlist [.vstr "task1", .vstr "task2", .vstr "task3"]) none).2.tokens_used = 15 ∧
    (CentralizedMultiAgent.execute_task noFunApp
        (initCentralized "centralized_system" 3
          [("tokens_per_task", 10), ("coordination_tokens_per_task", 5)])
        (.vlist [.vstr "task1", .vstr "task2", .vstr "task3"]) none).1.tokens_used = 45 :=
  ⟨rfl, rfl, rfl, rfl, rfl⟩

/-- C10: the hybrid constructor creates `max(1, N // S)` teams of
exactly `S` workers each, i.e. `max(1, N // S) × S` workers in total —
not `N` whenever `S` does not divide `N`.  (`S = 0` is excluded: there
the Python constructor raises `ZeroDivisionError` and no instance is
created.) -/
theorem C10_hybrid_worker_count {F : Type} (id : String) (caps : Caps)
    (N S : Nat) (hS : 0 < S) :
    (initHybrid (F := F) id N S caps).num_teams = max 1 (N / S) ∧
    (initHybrid (F := F) id N S caps).teams.length = max 1 (N / S) ∧
    ((initHybrid (F := F) id N S caps).teams.map List.length).sum =
      max 1 (N / S) * S := by
  refine ⟨rfl, by simp [initHybrid], ?_⟩
  simp only [initHybrid, List.map_map]
  have h1 : (List.length ∘ fun (t : Nat) => (List.range S).map
      (fun a => initAgent (F := F)
        (id ++ "_team" ++ toString t ++ "_agent" ++ toString a) caps)) =
      fun _ => S := by
    funext t; simp
  rw [h1]
  induction (max 1 (N / S)) with
  | zero => simp
  | succ n ih =>
      rw [List.range_succ, List.map_append, List.sum_append]
      simp [ih, Nat.succ_mul]

/-- Witness for C10: 7 workers requested with team size 2 yields 6
workers, and 2 workers requested with team size 5 yields 5 workers in a
single team. -/
theorem C10_hybrid_worker_count_witness :
    (0 : Nat) < 2 ∧
      ((initHybrid (F := Empty) "hybrid_system" 7 2 []).teams.map List.length).sum =
        max 1 (7 / 2) * 2 ∧
      ((initHybrid (F := Empty) "hybrid_system" 2 5 []).teams.length = 1 ∧
        ((initHybrid (F := Empty) "hybrid_system" 2 5 []).teams.map List.length).sum = 5) :=
  ⟨by decide,
    (C10_hybrid_worker_count "hybrid_system" [] 7 2 (by decide)).2.2,
    by
      have h := C10_hybrid_worker_count (F := Empty) "hybrid_system" [] 2 5 (by decide)
      exact ⟨by rw [h.2.1]; decide, by rw [h.2.2]; decide⟩⟩

/-! ## Token balance (claim C1) -/

/-- One coordination step moves exactly the new result's reported tokens
into the workers' counters (coordinator-counter movements are separate). -/
theorem coordStep_balance {F : Type} (app : App F) (context : Option (Ctx F))
    (p : CentralizedState F × List (TaskResult F)) (a : Nat × PyVal F) :
    agentsTokens (coordStep app context p a).1.agents + resultsTokens p.2 =
      agentsTokens p.1.agents + resultsTokens (coordStep app context p a).2 := by
  unfold coordStep
  rcases hg : p.1.agents.get? a.1 with _ | ag
  · simp only [hg]
  · simp only [hg]
    have hs := single_tokens app ag a.2
      (some (dictSet (context.getD []) "global_state" (.vdict p.1.global_state)))
    have hset := agentsTokens_set p.1.agents a.1 ag
      (SingleAgent.execute_task app ag a.2
        (some (dictSet (context.getD []) "global_state" (.vdict p.1.global_state)))).2 hg
    split <;> simp only [resultsTokens, List.map_append, List.sum_append,
      List.map_cons, List.sum_cons, List.map_nil, List.sum_nil] <;> omega

/-- Centralized aggregation reports the pooled result tokens plus the
coordinator's counter, and touches neither the workers nor the counter. -/
theorem aggregateResults_tokens {F : Type} (st : CentralizedState F)
    (results : List (TaskResult F)) :
    (aggregateResults st results).1.tokens_used = resultsTokens results + st.tokens_used ∧
    (aggregateResults st results).2.agents = st.agents ∧
    (aggregateResults st results).2.tokens_used = st.tokens_used := by
  unfold aggregateResults
  rcases hf : results.filter (fun r => r.success) with _ | _ <;>
    simp [hf, resultsTokens]

/-- Message delivery does not touch any token counter. -/
theorem agentsTokens_recv {F : Type} (senderId : String) (m : Message F)
    (l : List (AgentState F)) :
    agentsTokens (l.map (fun ag => if ag.agent_id == senderId then ag
      else { ag with message_history := ag.message_history ++ [m] })) =
      agentsTokens l :=
  agentsTokens_map _ (fun a => by split <;> rfl) l

/-- One peer step moves exactly the new result's reported tokens into
the peers' counters. -/
theorem peerStep_balance {F : Type} (app : App F) (task : PyVal F)
    (context : Option (Ctx F)) (roundIdx : Nat)
    (p : DecentralizedState F × List (TaskResult F)) (i : Nat) :
    agentsTokens (peerStep app task context roundIdx p i).1.agents + resultsTokens p.2 =
      agentsTokens p.1.agents + resultsTokens (peerStep app task context roundIdx p i).2 := by
  unfold peerStep broadcastMessage
  rcases hg : p.1.agents.get? i with _ | ag
  · simp only [hg]
  · simp only [hg]
    have hs := single_tokens app ag task
      (some (dictSet (dictSet (context.getD []) "round" (.vint roundIdx))
        "peer_messages"
        (.vlist ((p.1.shared_messages.filter
            (fun m => m.sender_id != ag.agent_id)).map msgToVal))))
    have hset := agentsTokens_set p.1.agents i ag
      (SingleAgent.execute_task app ag task
        (some (dictSet (dictSet (context.getD []) "round" (.vint roundIdx))
          "peer_messages"
          (.vlist ((p.1.shared_messages.filter
              (fun m => m.sender_id != ag.agent_id)).map msgToVal))))).2 hg
    split <;>
      simp only [agentsTokens_recv, resultsTokens, List.map_append, List.sum_append,
        List.map_cons, List.sum_cons, List.map_nil, List.sum_nil] <;>
      omega

/-- Decentralized aggregation reports the pooled result tokens plus the
composite's counter, and touches neither the peers nor the counter. -/
theorem consensusAggregation_tokens {F : Type} (st : DecentralizedState F)
    (results : List (TaskResult F)) :
    (consensusAggregation st results).1.tokens_used = resultsTokens results + st.tokens_used ∧
    (consensusAggregation st results).2.agents = st.agents ∧
    (consensusAggregation st results).2.tokens_used = st.tokens_used := by
  unfold consensusAggregation
  rcases hf : (results.filter (fun r => r.success)).getLast? with _ | _ <;>
    simp [hf, resultsTokens]

/-- Sum of all worker counters across the hybrid composite's teams. -/
def teamsTokens {F : Type} (ts : List (List (AgentState F))) : Nat :=
  (ts.map agentsTokens).sum

/-- Replacing team `i` changes the total token sum by the difference of
the old and new teams. -/
theorem teamsTokens_set {F : Type} :
    ∀ (ts : List (List (AgentState F))) (i : Nat) (tm tm' : List (AgentState F)),
      ts.get? i = some tm →
      teamsTokens (ts.set i tm') + agentsTokens tm =
        teamsTokens ts + agentsTokens tm' := by
  intro ts
  induction ts with
  | nil => intro i tm tm' h; simp at h
  | cons hd tl ih =>
      intro i tm tm' h
      cases i with
      | zero =>
          simp only [List.get?] at h
          cases h
          simp [teamsTokens]
          omega
      | succ j =>
          simp only [List.get?] at h
          have := ih j tm tm' h
          simp [teamsTokens] at *
          omega

/-- A list of results each reporting zero tokens sums to zero. -/
theorem resultsTokens_eq_zero {F : Type} (l : List (TaskResult F))
    (h : ∀ r ∈ l, r.tokens_used = 0) : resultsTokens l = 0 := by
  refine List.sum_eq_zero ?_
  intro x hx
  obtain ⟨r, hr, rfl⟩ := List.mem_map.mp hx
  exact h r hr

/-- One team-member step moves exactly the new result's reported tokens
into the team's counters. -/
theorem teamMemberStep_balance {F : Type} (app : App F) (tIdx : Nat)
    (teamTask : PyVal F) (context : Option (Ctx F))
    (p : HybridState F × List (TaskResult F)) (j : Nat) :
    teamsTokens (teamMemberStep app tIdx teamTask context p j).1.teams + resultsTokens p.2 =
      teamsTokens p.1.teams +
        resultsTokens (teamMemberStep app tIdx teamTask context p j).2 := by
  unfold teamMemberStep
  rcases hg : (p.1.teams.getD tIdx []).get? j with _ | ag
  · simp only [hg]
  · simp only [hg]
    have hlen : tIdx < p.1.teams.length := by
      by_contra hcon
      rw [List.getD_eq_default _ _ (Nat.le_of_not_lt hcon)] at hg
      simp at hg
    have hts : p.1.teams.get? tIdx = some (p.1.teams.getD tIdx []) := by
      rw [List.get?_eq_getElem?, List.getElem?_eq_getElem hlen,
        List.getD_eq_getElem _ _ hlen]
    have hs := single_tokens app ag teamTask
      (some (dictSet (dictSet
        (dictSet (context.getD []) "team_idx" (.vint tIdx))
        "team_messages"
        (.vlist ((p.1.team_messages.getD tIdx []).map msgToVal)))
        "global_state" (.vdict p.1.global_state)))
    have hsetA := agentsTokens_set (p.1.teams.getD tIdx []) j ag
      (SingleAgent.execute_task app ag teamTask
        (some (dictSet (dictSet
          (dictSet (context.getD []) "team_idx" (.vint tIdx))
          "team_messages"
          (.vlist ((p.1.team_messages.getD tIdx []).map msgToVal)))
          "global_state" (.vdict p.1.global_state)))).2 hg
    have hsetT := teamsTokens_set p.1.teams tIdx (p.1.teams.getD tIdx [])
      ((p.1.teams.getD tIdx []).set j
        (SingleAgent.execute_task app ag teamTask
          (some (dictSet (dictSet
            (dictSet (context.getD []) "team_idx" (.vint tIdx))
            "team_messages"
            (.vlist ((p.1.team_messages.getD tIdx []).map msgToVal)))
            "global_state" (.vdict p.1.global_state)))).2) hts
    split <;>
      simp only [resultsTokens, List.map_append, List.sum_append,
        List.map_cons, List.sum_cons, List.map_nil, List.sum_nil] <;>
      omega

/-- Team-member steps only append results whose failure reports zero
tokens. -/
theorem teamMemberStep_failZero {F : Type} (app : App F) (tIdx : Nat)
    (teamTask : PyVal F) (context : Option (Ctx F))
    (p : HybridState F × List (TaskResult F)) (j : Nat)
    (hq : ∀ r ∈ p.2, r.success = false → r.tokens_used = 0) :
    ∀ r ∈ (teamMemberStep app tIdx teamTask context p j).2,
      r.success = false → r.tokens_used = 0 := by
  unfold teamMemberStep
  rcases hg : (p.1.teams.getD tIdx []).get? j with _ | ag
  · simpa only [hg] using hq
  · simp only [hg]
    have hs := single_tokens app ag teamTask
      (some (dictSet (dictSet
        (dictSet (context.getD []) "team_idx" (.vint tIdx))
        "team_messages"
        (.vlist ((p.1.team_messages.getD tIdx []).map msgToVal)))
        "global_state" (.vdict p.1.global_state)))
    intro r hr
    rcases List.mem_append.mp hr with h1 | h2
    · exact hq r h1
    · simp only [List.mem_singleton] at h2
      subst h2
      exact hs.2.2.2.2

/-- A team's reported result tokens equal the increase of its members'
counters during the team run (zero for `no_task` teams and for teams
whose members all failed). -/
theorem teamCoordination_balance {F : Type} (app : App F) (st : HybridState F)
    (tIdx : Nat) (teamTask : PyVal F) (context : Option (Ctx F)) :
    (teamCoordination app st tIdx teamTask context).1.tokens_used +
        teamsTokens st.teams =
      teamsTokens (teamCoordination app st tIdx teamTask context).2.teams := by
  unfold teamCoordination
  split
  · simp
  · have hb := foldl_balance (F := F)
      (fun s : HybridState F => teamsTokens s.teams)
      (teamMemberStep app tIdx teamTask context)
      (teamMemberStep_balance app tIdx teamTask context)
      (List.range (st.teams.getD tIdx []).length) (st, [])
    have hz := foldl_pred
      (fun acc : HybridState F × List (TaskResult F) =>
        ∀ r ∈ acc.2, r.success = false → r.tokens_used = 0)
      (teamMemberStep app tIdx teamTask context)
      (teamMemberStep_failZero app tIdx teamTask context)
      (List.range (st.teams.getD tIdx []).length) (st, []) (by simp)
    rcases hL : (((List.range (st.teams.getD tIdx []).length).foldl
        (teamMemberStep app tIdx teamTask context) (st, [])).2.filter
          (fun r => r.success)).getLast? with _ | last
    · simp only [hL]
      have hnil : ((List.range (st.teams.getD tIdx []).length).foldl
          (teamMemberStep app tIdx teamTask context) (st, [])).2.filter
            (fun r => r.success) = [] := by
        simpa using hL
      have hzero : resultsTokens (((List.range (st.teams.getD tIdx []).length).foldl
          (teamMemberStep app tIdx teamTask context) (st, [])).2) = 0 := by
        refine resultsTokens_eq_zero _ ?_
        intro r hr
        have hfail : r.success = false := by
          have := List.filter_eq_nil_iff.mp hnil r hr
          simpa using this
        exact hz r hr hfail
      simp only [resultsTokens, List.map_nil, List.sum_nil] at hb hzero ⊢
      omega
    · simp only [hL]
      simp only [resultsTokens, List.map_nil, List.sum_nil] at hb ⊢
      omega

/-- One team step of the hybrid execute loop moves exactly the team
result's reported tokens into the workers' counters. -/
theorem hybridTeamStep_balance {F : Type} (app : App F) (context : Option (Ctx F))
    (p : HybridState F × List (TaskResult F)) (a : Nat × PyVal F) :
    teamsTokens (hybridTeamStep app context p a).1.teams + resultsTokens p.2 =
      teamsTokens p.1.teams + resultsTokens (hybridTeamStep app context p a).2 := by
  unfold hybridTeamStep
  have hb := teamCoordination_balance app p.1 a.1 a.2 context
  dsimp only
  split <;>
    simp only [resultsTokens, List.map_append, List.sum_append,
      List.map_cons, List.sum_cons, List.map_nil, List.sum_nil] <;>
    simp only [resultsTokens] at hb <;>
    omega

/-- Hybrid aggregation reports the pooled team tokens plus the
coordinator's counter (after the aggregation charge), and touches
neither the teams nor — beyond that charge — the counter. -/
theorem aggregateTeamResults_tokens {F : Type} (st : HybridState F)
    (teamResults : List (TaskResult F)) :
    (aggregateTeamResults st teamResults).1.tokens_used =
        resultsTokens teamResults + st.tokens_used +
          capGet st.capabilities "aggregation_tokens" 15 ∧
      (aggregateTeamResults st teamResults).2.teams = st.teams ∧
      (aggregateTeamResults st teamResults).2.tokens_used =
        st.tokens_used + capGet st.capabilities "aggregation_tokens" 15 := by
  unfold aggregateTeamResults
  rcases hf : teamResults.filter (fun r => r.success && !(isNoneVal r.output)) with _ | _ <;>
    simp [hf, resultsTokens] <;> omega

/-- Strategic decomposition touches only the coordinator's counter. -/
theorem strategicDecomposition_frame {F : Type} (st : HybridState F) (task : PyVal F) :
    (strategicDecomposition st task).2.teams = st.teams ∧
      (strategicDecomposition st task).2.tokens_used =
        st.tokens_used + capGet st.capabilities "strategy_tokens" 20 ∧
      (strategicDecomposition st task).2.capabilities = st.capabilities := by
  unfold strategicDecomposition
  cases task <;> exact ⟨rfl, rfl, rfl⟩

/-- Centralized: every invocation's result reports the children's tokens
of that invocation plus the coordinator's CUMULATIVE counter (which is
never reset across invocations). -/
theorem centralizedTokensCumulative {F : Type} (app : App F)
    (st : CentralizedState F) (task : PyVal F) (context : Option (Ctx F)) :
    (CentralizedMultiAgent.execute_task app st task context).1.tokens_used +
        agentsTokens st.agents =
      agentsTokens (CentralizedMultiAgent.execute_task app st task context).2.agents +
        (CentralizedMultiAgent.execute_task app st task context).2.tokens_used := by
  unfold CentralizedMultiAgent.execute_task coordinateExecution
  dsimp only
  have hb := foldl_balance (F := F)
    (fun s : CentralizedState F => agentsTokens s.agents)
    (coordStep app context) (coordStep_balance app context)
    (centralizedDecompose { st with global_state := [] } task)
    ({ st with global_state := [] }, [])
  have ha := aggregateResults_tokens
    ((centralizedDecompose { st with global_state := [] } task).foldl
      (coordStep app context) ({ st with global_state := [] }, [])).1
    ((centralizedDecompose { st with global_state := [] } task).foldl
      (coordStep app context) ({ st with global_state := [] }, [])).2
  rw [ha.1, ha.2.1, ha.2.2]
  simp only [resultsTokens, List.map_nil, List.sum_nil] at hb ⊢
  omega

/-- Decentralized: every invocation's result reports the pooled peer
tokens of that invocation plus the composite's CUMULATIVE counter. -/
theorem decentralizedTokensCumulative {F : Type} (app : App F)
    (st : DecentralizedState F) (task : PyVal F) (context : Option (Ctx F)) :
    (DecentralizedMultiAgent.execute_task app st task context).1.tokens_used +
        agentsTokens st.agents =
      agentsTokens (DecentralizedMultiAgent.execute_task app st task context).2.agents +
        (DecentralizedMultiAgent.execute_task app st task context).2.tokens_used := by
  unfold DecentralizedMultiAgent.execute_task peerToPeerCoordination
  dsimp only
  have hb := foldl_balance (F := F)
    (fun s : DecentralizedState F => agentsTokens s.agents)
    (fun acc roundIdx =>
      (List.range acc.1.agents.length).foldl (peerStep app task context roundIdx) acc)
    (fun p i => foldl_balance (F := F)
      (fun s : DecentralizedState F => agentsTokens s.agents)
      (peerStep app task context i) (peerStep_balance app task context i)
      (List.range p.1.agents.length) p)
    (List.range (capGet st.capabilities "coordination_rounds" 2))
    ({ st with shared_messages := [] }, [])
  have ha := consensusAggregation_tokens
    ((List.range (capGet st.capabilities "coordination_rounds" 2)).foldl
      (fun acc roundIdx =>
        (List.range acc.1.agents.length).foldl (peerStep app task context roundIdx) acc)
      ({ st with shared_messages := [] }, [])).1
    ((List.range (capGet st.capabilities "coordination_rounds" 2)).foldl
      (fun acc roundIdx =>
        (List.range acc.1.agents.length).foldl (peerStep app task context roundIdx) acc)
      ({ st with shared_messages := [] }, [])).2
  rw [ha.1, ha.2.1, ha.2.2]
  simp only [resultsTokens, List.map_nil, List.sum_nil] at hb ⊢
  omega

/-- Hybrid: every invocation's result reports the teams' member tokens
of that invocation plus the coordinator's CUMULATIVE counter. -/
theorem hybridTokensCumulative {F : Type} (app : App F)
    (st : HybridState F) (task : PyVal F) (context : Option (Ctx F)) :
    (HybridMultiAgent.execute_task app st task context).1.tokens_used +
        teamsTokens st.teams =
      teamsTokens (HybridMultiAgent.execute_task app st task context).2.teams +
        (HybridMultiAgent.execute_task app st task context).2.tokens_used := by
  unfold HybridMultiAgent.execute_task
  dsimp only
  have hsd := strategicDecomposition_frame
    { st with global_state := [], team_messages := List.replicate st.num_teams [] } task
  have hb := foldl_balance (F := F)
    (fun s : HybridState F => teamsTokens s.teams)
    (hybridTeamStep app context) (hybridTeamStep_balance app context)
    (((strategicDecomposition
        { st with global_state := [], team_messages := List.replicate st.num_teams [] }
        task).1.take
      st.teams.length).enum)
    ((strategicDecomposition
        { st with global_state := [], team_messages := List.replicate st.num_teams [] }
        task).2, [])
  have ha := aggregateTeamResults_tokens
    ((((strategicDecomposition
        { st with global_state := [], team_messages := List.replicate st.num_teams [] }
        task).1.take
      st.teams.length).enum).foldl (hybridTeamStep app context)
      ((strategicDecomposition
        { st with global_state := [], team_messages := List.replicate st.num_teams [] }
        task).2, [])).1
    ((((strategicDecomposition
        { st with global_state := [], team_messages := List.replicate st.num_teams [] }
        task).1.take
      st.teams.length).enum).foldl (hybridTeamStep app context)
      ((strategicDecomposition
        { st with global_state := [], team_messages := List.replicate st.num_teams [] }
        task).2, [])).2
  rw [ha.1, ha.2.1, ha.2.2]
  rw [hsd.1] at hb
  simp only [resultsTokens, List.map_nil, List.sum_nil] at hb ⊢
  omega

/-- C1 (amended): for every invocation of a composite execute operation
(centralized, decentralized, hybrid), the returned `tokens_used` equals
the children's reported tokens for that invocation (the increase of the
child counters) plus the composite's CUMULATIVE coordination-token
counter as of the end of that invocation.  Since that counter is never
reset by `execute`, the claim's equation — children's tokens plus only
the coordination tokens of that invocation — holds exactly when the
composite's counter is zero at the start (fresh instance or after
`reset_metrics`); on later invocations earlier coordination tokens are
counted again. -/
theorem C1_composite_token_accounting :
    (∀ (F : Type) (app : App F) (st : CentralizedState F) (task : PyVal F)
        (context : Option (Ctx F)),
      (CentralizedMultiAgent.execute_task app st task context).1.tokens_used +
          agentsTokens st.agents =
        agentsTokens (CentralizedMultiAgent.execute_task app st task context).2.agents +
          (CentralizedMultiAgent.execute_task app st task context).2.tokens_used) ∧
    (∀ (F : Type) (app : App F) (st : DecentralizedState F) (task : PyVal F)
        (context : Option (Ctx F)),
      (DecentralizedMultiAgent.execute_task app st task context).1.tokens_used +
          agentsTokens st.agents =
        agentsTokens (DecentralizedMultiAgent.execute_task app st task context).2.agents +
          (DecentralizedMultiAgent.execute_task app st task context).2.tokens_used) ∧
    (∀ (F : Type) (app : App F) (st : HybridState F) (task : PyVal F)
        (context : Option (Ctx F)),
      (HybridMultiAgent.execute_task app st task context).1.tokens_used +
          teamsTokens st.teams =
        teamsTokens (HybridMultiAgent.execute_task app st task context).2.teams +
          (HybridMultiAgent.execute_task app st task context).2.tokens_used) :=
  ⟨fun _ => centralizedTokensCumulative, fun _ => decentralizedTokensCumulative,
    fun _ => hybridTokensCumulative⟩

/-- C1 counterexample: on the SECOND invocation of a centralized
composite (1 worker, `tokens_per_task=10`,
`coordination_tokens_per_task=5`) the result reports 20 tokens, while
the children's tokens for that invocation are 10 and the coordination
tokens spent directly during that invocation are 5 — the claimed
equation `20 = 10 + 5` is false, because the first invocation's 5
coordination tokens are folded in again. -/
theorem C1_counterexample_second_invocation :
    (CentralizedMultiAgent.execute_task noFunApp
        (CentralizedMultiAgent.execute_task noFunApp
          (initCentralized "centralized_system" 1
            [("tokens_per_task", 10), ("coordination_tokens_per_task", 5)])
          (.vstr "t") none).2
        (.vstr "t") none).1.tokens_used = 20 ∧
    agentsTokens (CentralizedMultiAgent.execute_task noFunApp
        (CentralizedMultiAgent.execute_task noFunApp
          (initCentralized "centralized_system" 1
            [("tokens_per_task", 10), ("coordination_tokens_per_task", 5)])
          (.vstr "t") none).2
        (.vstr "t") none).2.agents -
      agentsTokens (CentralizedMultiAgent.execute_task noFunApp
        (initCentralized "centralized_system" 1
          [("tokens_per_task", 10), ("coordination_tokens_per_task", 5)])
        (.vstr "t") none).2.agents = 10 ∧
    (CentralizedMultiAgent.execute_task noFunApp
        (CentralizedMultiAgent.execute_task noFunApp
          (initCentralized "centralized_system" 1
            [("tokens_per_task", 10), ("coordination_tokens_per_task", 5)])
          (.vstr "t") none).2
        (.vstr "t") none).2.tokens_used -
      (CentralizedMultiAgent.execute_task noFunApp
        (initCentralized "centralized_system" 1
          [("tokens_per_task", 10), ("coordination_tokens_per_task", 5)])
        (.vstr "t") none).2.tokens_used = 5 ∧
    (20 : Nat) ≠ 10 + 5 :=
  ⟨rfl, rfl, rfl, by decide⟩

/-- Every single-agent result satisfies the error/success invariant. -/
theorem single_errOk {F : Type} (app : App F) (st : AgentState F)
    (task : PyVal F) (context : Option (Ctx F)) :
    errOk (SingleAgent.execute_task app st task context).1 = true :=
  (single_tokens app st task context).2.2.2.1

/-- Coordination steps only append invariant-satisfying results. -/
theorem coordStep_errOk {F : Type} (app : App F) (context : Option (Ctx F))
    (p : CentralizedState F × List (TaskResult F)) (a : Nat × PyVal F)
    (hq : p.2.all errOk = true) :
    ((coordStep app context p a).2).all errOk = true := by
  unfold coordStep
  rcases hg : p.1.agents.get? a.1 with _ | ag
  · simpa only [hg] using hq
  · simp only [hg]
    simp [List.all_append, hq, single_errOk]

/-- Peer steps only append invariant-satisfying results. -/
theorem peerStep_errOk {F : Type} (app : App F) (task : PyVal F)
    (context : Option (Ctx F)) (roundIdx : Nat)
    (p : DecentralizedState F × List (TaskResult F)) (i : Nat)
    (hq : p.2.all errOk = true) :
    ((peerStep app task context roundIdx p i).2).all errOk = true := by
  unfold peerStep
  rcases hg : p.1.agents.get? i with _ | ag
  · simpa only [hg] using hq
  · simp only [hg]
    simp [List.all_append, hq, single_errOk]

/-- Independent steps only append invariant-satisfying results. -/
theorem independentStep_errOk {F : Type} (app : App F) (task : PyVal F)
    (context : Option (Ctx F))
    (p : IndependentState F × List (TaskResult F) × List String) (i : Nat)
    (hq : p.2.1.all errOk = true) :
    ((independentStep app task context p i).2).1.all errOk = true := by
  unfold independentStep
  rcases hg : p.1.agents.get? i with _ | ag
  · simpa only [hg] using hq
  · simp only [hg]
    split <;> simp [List.all_append, hq, single_errOk]

/-- Every team-level result (including the `no_task` one) satisfies the
error/success invariant. -/
theorem teamCoordination_errOk {F : Type} (app : App F) (st : HybridState F)
    (tIdx : Nat) (teamTask : PyVal F) (context : Option (Ctx F)) :
    errOk (teamCoordination app st tIdx teamTask context).1 = true := by
  unfold teamCoordination
  split
  · rfl
  · rcases hL : (((List.range (st.teams.getD tIdx []).length).foldl
        (teamMemberStep app tIdx teamTask context) (st, [])).2.filter
          (fun r => r.success)).getLast? with _ | last <;>
      simp only [hL] <;> rfl

/-- Hybrid team steps only append invariant-satisfying team results. -/
theorem hybridTeamStep_errOk {F : Type} (app : App F) (context : Option (Ctx F))
    (p : HybridState F × List (TaskResult F)) (a : Nat × PyVal F)
    (hq : p.2.all errOk = true) :
    ((hybridTeamStep app context p a).2).all errOk = true := by
  unfold hybridTeamStep
  dsimp only
  simp [List.all_append, hq, teamCoordination_errOk]

/-- Centralized aggregates satisfy the error/success invariant. -/
theorem aggregateResults_errOk {F : Type} (st : CentralizedState F)
    (results : List (TaskResult F)) :
    errOk (aggregateResults st results).1 = true := by
  unfold aggregateResults
  rcases hf : results.filter (fun r => r.success) with _ | _ <;>
    simp only [hf] <;> rfl

/-- Decentralized aggregates satisfy the error/success invariant. -/
theorem consensusAggregation_errOk {F : Type} (st : DecentralizedState F)
    (results : List (TaskResult F)) :
    errOk (consensusAggregation st results).1 = true := by
  unfold consensusAggregation
  rcases hf : (results.filter (fun r => r.success)).getLast? with _ | _ <;>
    simp only [hf] <;> rfl

/-- Hybrid aggregates satisfy the error/success invariant. -/
theorem aggregateTeamResults_errOk {F : Type} (st : HybridState F)
    (teamResults : List (TaskResult F)) :
    errOk (aggregateTeamResults st teamResults).1 = true := by
  unfold aggregateTeamResults
  rcases hf : teamResults.filter (fun r => r.success && !(isNoneVal r.output)) with _ | _ <;>
    simp only [hf] <;> rfl

/-- Independent aggregates satisfy the error/success invariant. -/
theorem independentAggregate_errOk {F : Type} (app : App F)
    (st : IndependentState F) (task : PyVal F) (context : Option (Ctx F)) :
    errOk (IndependentMultiAgent.execute_task app st task context).1 = true := by
  unfold IndependentMultiAgent.execute_task
  dsimp only
  rcases hf : (((List.range st.agents.length).foldl
      (independentStep app task context) (st, [], [])).2.1.filter
        (fun r => r.success)) with _ | _ <;>
    simp only [hf] <;> rfl

/-- C9: every `TaskResult` produced by any execute operation of any of
the five architectures — the aggregate results, the per-subtask results
of the centralized coordination, the pooled per-round per-peer results
of the decentralized coordination, the per-child results of the
independent composite, and every team-level result of the hybrid
composite (including the `no_task` one) — satisfies: `error` is non-null
iff `success` is false (`errOk`). -/
theorem C9_error_iff_failure :
    (∀ (F : Type) (app : App F) (st : AgentState F) (task : PyVal F)
        (context : Option (Ctx F)),
      errOk (SingleAgent.execute_task app st task context).1 = true) ∧
    (∀ (F : Type) (app : App F) (st : IndependentState F) (task : PyVal F)
        (context : Option (Ctx F)),
      errOk (IndependentMultiAgent.execute_task app st task context).1 = true ∧
      (((List.range st.agents.length).foldl (independentStep app task context)
          (st, [], [])).2).1.all errOk = true) ∧
    (∀ (F : Type) (app : App F) (st : CentralizedState F) (task : PyVal F)
        (context : Option (Ctx F)),
      errOk (CentralizedMultiAgent.execute_task app st task context).1 = true ∧
      (coordinateExecution app { st with global_state := [] }
          (centralizedDecompose { st with global_state := [] } task)
          context).2.all errOk = true) ∧
    (∀ (F : Type) (app : App F) (st : DecentralizedState F) (task : PyVal F)
        (context : Option (Ctx F)),
      errOk (DecentralizedMultiAgent.execute_task app st task context).1 = true ∧
      (peerToPeerCoordination app { st with shared_messages := [] } task
          context).2.all errOk = true) ∧
    (∀ (F : Type) (app : App F) (st : HybridState F) (task : PyVal F)
        (context : Option (Ctx F)) (tIdx : Nat) (teamTask : PyVal F),
      errOk (HybridMultiAgent.execute_task app st task context).1 = true ∧
      errOk (teamCoordination app st tIdx teamTask context).1 = true) := by
  refine ⟨?_, ?_, ?_, ?_, ?_⟩
  · intro F app st task context
    exact single_errOk app st task context
  · intro F app st task context
    refine ⟨independentAggregate_errOk app st task context, ?_⟩
    exact foldl_pred
      (fun p : IndependentState F × List (TaskResult F) × List String =>
        p.2.1.all errOk = true)
      (independentStep app task context)
      (independentStep_errOk app task context)
      (List.range st.agents.length) (st, [], []) rfl
  · intro F app st task context
    refine ⟨aggregateResults_errOk _ _, ?_⟩
    exact foldl_pred
      (fun p : CentralizedState F × List (TaskResult F) => p.2.all errOk = true)
      (coordStep app context) (coordStep_errOk app context)
      (centralizedDecompose { st with global_state := [] } task)
      ({ st with global_state := [] }, []) rfl
  · intro F app st task context
    refine ⟨consensusAggregation_errOk _ _, ?_⟩
    exact foldl_pred
      (fun p : DecentralizedState F × List (TaskResult F) => p.2.all errOk = true)
      (fun acc roundIdx =>
        (List.range acc.1.agents.length).foldl (peerStep app task context roundIdx) acc)
      (fun p i hq => foldl_pred
        (fun q : DecentralizedState F × List (TaskResult F) => q.2.all errOk = true)
        (peerStep app task context i) (peerStep_errOk app task context i)
        (List.range p.1.agents.length) p hq)
      (List.range (capGet st.capabilities "coordination_rounds" 2))
      ({ st with shared_messages := [] }, []) rfl
  · intro F app st task context tIdx teamTask
    exact ⟨aggregateTeamResults_errOk _ _, teamCoordination_errOk app st tIdx teamTask context⟩

/-- C5: in every decentralized invocation the pooled per-round per-peer
results decide the aggregate — if any of them succeeded, the aggregate
succeeds and its output is the output of the most recently produced
successful result (the last success in pool order across all rounds and
peers); if none succeeded, the aggregate fails with the no-consensus
error. -/
theorem C5_decentralized_last_success_wins :
    ∀ (F : Type) (app : App F) (st : DecentralizedState F) (task : PyVal F)
      (context : Option (Ctx F)),
      if 0 < ((peerToPeerCoordination app { st with shared_messages := [] }
          task context).2.filter (fun r => r.success)).length then
        (DecentralizedMultiAgent.execute_task app st task context).1.success = true ∧
        (((peerToPeerCoordination app { st with shared_messages := [] }
            task context).2.filter (fun r => r.success)).map
              (fun r => r.output)).getLast? =
          some (DecentralizedMultiAgent.execute_task app st task context).1.output
      else
        (DecentralizedMultiAgent.execute_task app st task context).1.success = false ∧
        (DecentralizedMultiAgent.execute_task app st task context).1.error =
          some "No agents reached consensus" := by
  intro F app st task context
  unfold DecentralizedMultiAgent.execute_task consensusAggregation
  dsimp only
  rcases hL : ((peerToPeerCoordination app { st with shared_messages := [] }
      task context).2.filter (fun r => r.success)).getLast? with _ | last
  · have hnil : (peerToPeerCoordination app { st with shared_messages := [] }
        task context).2.filter (fun r => r.success) = [] :=
      List.getLast?_eq_none_iff.mp hL
    rw [if_neg (by simp [hnil])]
    simp only [hL]
    refine ⟨?_, ?_⟩ <;> first | rfl | trivial
  · have hne : (peerToPeerCoordination app { st with shared_messages := [] }
        task context).2.filter (fun r => r.success) ≠ [] := by
      intro hcon
      rw [hcon] at hL
      simp at hL
    rw [if_pos (List.length_pos.mpr hne)]
    simp only [hL]
    refine ⟨?_, ?_⟩
    · first | rfl | trivial
    · rw [List.getLast?_map, hL]
      rfl

/-- Success path of the single agent, in the form the composite
accounting proofs need. -/
theorem single_success_tokens {F : Type} (app : App F) (st : AgentState F)
    (task : PyVal F) (context : Option (Ctx F)) (v : PyVal F)
    (h : attempt app task (context.getD []) = Except.ok v) :
    (SingleAgent.execute_task app st task context).1.success = true ∧
    (SingleAgent.execute_task app st task context).1.tokens_used =
      capGet st.capabilities "tokens_per_task" 100 ∧
    (SingleAgent.execute_task app st task context).2.tokens_used =
      st.tokens_used + capGet st.capabilities "tokens_per_task" 100 ∧
    (SingleAgent.execute_task app st task context).2.capabilities =
      st.capabilities ∧
    (SingleAgent.execute_task app st task context).2.agent_id = st.agent_id := by
  simp [SingleAgent.execute_task, h]

/-- One peer step under an always-succeeding task: the peers' counters
grow by exactly `tokens_per_task` and the composite's counter by exactly
`communication_tokens_per_message * (N - 1)`, preserving the structural
invariant. -/
theorem peerStep_exact {F : Type} (app : App F) (task : PyVal F)
    (context : Option (Ctx F)) (N : Nat) (caps : Caps)
    (hsucc : alwaysSucceeds app task) (roundIdx : Nat)
    (p : DecentralizedState F × List (TaskResult F)) (i : Nat) (hi : i < N)
    (hinv : p.1.num_agents = N ∧ p.1.agents.length = N ∧
      p.1.capabilities = caps ∧ ∀ ag ∈ p.1.agents, ag.capabilities = caps) :
    ((peerStep app task context roundIdx p i).1.num_agents = N ∧
      (peerStep app task context roundIdx p i).1.agents.length = N ∧
      (peerStep app task context roundIdx p i).1.capabilities = caps ∧
      ∀ ag ∈ (peerStep app task context roundIdx p i).1.agents,
        ag.capabilities = caps) ∧
    agentsTokens (peerStep app task context roundIdx p i).1.agents =
      agentsTokens p.1.agents + capGet caps "tokens_per_task" 100 ∧
    (peerStep app task context roundIdx p i).1.tokens_used =
      p.1.tokens_used +
        capGet caps "communication_tokens_per_message" 5 * (N - 1) := by
  obtain ⟨hN, hlen, hcaps, hagcaps⟩ := hinv
  have hilen : i < p.1.agents.length := by omega
  have hget : p.1.agents.get? i = some (p.1.agents.get ⟨i, hilen⟩) := by
    rw [List.get?_eq_getElem?]
    exact List.getElem?_eq_getElem hilen
  have hmem : p.1.agents.get ⟨i, hilen⟩ ∈ p.1.agents :=
    List.get_mem p.1.agents i hilen
  have hagcap : (p.1.agents.get ⟨i, hilen⟩).capabilities = caps :=
    hagcaps _ hmem
  obtain ⟨v, hv⟩ := hsucc (dictSet
    (dictSet (context.getD []) "round" (.vint roundIdx))
    "peer_messages"
    (.vlist ((p.1.shared_messages.filter
        (fun m => m.sender_id != (p.1.agents.get ⟨i, hilen⟩).agent_id)).map msgToVal)))
  have hv' : attempt app task
      ((some (dictSet
        (dictSet (context.getD []) "round" (.vint roundIdx))
        "peer_messages"
        (.vlist ((p.1.shared_messages.filter
            (fun m => m.sender_id != (p.1.agents.get ⟨i, hilen⟩).agent_id)).map
              msgToVal))) : Option (Ctx F)).getD []) = Except.ok v := hv
  obtain ⟨hx1, hx2, hx3, hx4, hx5⟩ := single_success_tokens app
    (p.1.agents.get ⟨i, hilen⟩) task
    (some (dictSet
      (dictSet (context.getD []) "round" (.vint roundIdx))
      "peer_messages"
      (.vlist ((p.1.shared_messages.filter
          (fun m => m.sender_id != (p.1.agents.get ⟨i, hilen⟩).agent_id)).map msgToVal))))
    v hv'
  have hsetA := agentsTokens_set p.1.agents i (p.1.agents.get ⟨i, hilen⟩)
    (SingleAgent.execute_task app (p.1.agents.get ⟨i, hilen⟩) task
      (some (dictSet
        (dictSet (context.getD []) "round" (.vint roundIdx))
        "peer_messages"
        (.vlist ((p.1.shared_messages.filter
            (fun m => m.sender_id != (p.1.agents.get ⟨i, hilen⟩).agent_id)).map msgToVal))))).2
    hget
  unfold peerStep broadcastMessage
  simp only [hget]
  rw [if_pos hx1]
  refine ⟨⟨hN, ?_, hcaps, ?_⟩, ?_, ?_⟩
  · simp [hlen]
  · intro x hx6
    simp only [List.mem_map] at hx6
    obtain ⟨y, hy, rfl⟩ := hx6
    have hycap : y.capabilities = caps := by
      rcases List.mem_or_eq_of_mem_set hy with h1 | h1
      · exact hagcaps y h1
      · rw [h1, hx4, hagcap]
    split <;> simpa using hycap
  · rw [agentsTokens_recv]
    rw [hagcap] at hx3
    omega
  · simp [hcaps, hN]


/-- One full round under an always-succeeding task: every peer runs
once, so counters grow by `N` peer-steps' worth. -/
theorem peerRound_exact {F : Type} (app : App F) (task : PyVal F)
    (context : Option (Ctx F)) (N : Nat) (caps : Caps)
    (hsucc : alwaysSucceeds app task) (s : DecentralizedState F × List (TaskResult F))
    (roundIdx : Nat)
    (hinv : s.1.num_agents = N ∧ s.1.agents.length = N ∧
      s.1.capabilities = caps ∧ ∀ ag ∈ s.1.agents, ag.capabilities = caps) :
    (((List.range s.1.agents.length).foldl
        (peerStep app task context roundIdx) s).1.num_agents = N ∧
      ((List.range s.1.agents.length).foldl
        (peerStep app task context roundIdx) s).1.agents.length = N ∧
      ((List.range s.1.agents.length).foldl
        (peerStep app task context roundIdx) s).1.capabilities = caps ∧
      ∀ ag ∈ ((List.range s.1.agents.length).foldl
        (peerStep app task context roundIdx) s).1.agents, ag.capabilities = caps) ∧
    agentsTokens ((List.range s.1.agents.length).foldl
        (peerStep app task context roundIdx) s).1.agents =
      agentsTokens s.1.agents + N * capGet caps "tokens_per_task" 100 ∧
    ((List.range s.1.agents.length).foldl
        (peerStep app task context roundIdx) s).1.tokens_used =
      s.1.tokens_used +
        N * (capGet caps "communication_tokens_per_message" 5 * (N - 1)) := by
  have h := foldl_exact
    (fun q : DecentralizedState F × List (TaskResult F) =>
      q.1.num_agents = N ∧ q.1.agents.length = N ∧
        q.1.capabilities = caps ∧ ∀ ag ∈ q.1.agents, ag.capabilities = caps)
    (fun q => agentsTokens q.1.agents) (fun q => q.1.tokens_used)
    (peerStep app task context roundIdx) (fun i => i < N)
    (capGet caps "tokens_per_task" 100)
    (capGet caps "communication_tokens_per_message" 5 * (N - 1))
    (fun q i hP hInv => peerStep_exact app task context N caps hsucc roundIdx q i hP hInv)
    (List.range s.1.agents.length) s
    (by intro j hj; rw [List.mem_range] at hj; omega)
    hinv
  dsimp only at h
  rw [List.length_range] at h
  refine ⟨h.1, ?_, ?_⟩
  · rw [h.2.1, hinv.2.1]
  · rw [h.2.2, hinv.2.1]

/-- Token totals of one decentralized invocation from a zero-token
state whose configuration reads back `R`, `M` and `T`: the peers gain
exactly `N*R*T` tokens and the composite exactly `N*R*M*(N-1)`. -/
theorem decentralizedTotals {F : Type} (app : App F) (task : PyVal F)
    (context : Option (Ctx F)) (N R M T : Nat) (caps : Caps)
    (st : DecentralizedState F)
    (hsucc : alwaysSucceeds app task)
    (hR : capGet caps "coordination_rounds" 2 = R)
    (hM : capGet caps "communication_tokens_per_message" 5 = M)
    (hT : capGet caps "tokens_per_task" 100 = T)
    (hinv : st.num_agents = N ∧ st.agents.length = N ∧ st.capabilities = caps ∧
      ∀ ag ∈ st.agents, ag.capabilities = caps)
    (hz1 : agentsTokens st.agents = 0) (hz2 : st.tokens_used = 0) :
    agentsTokens (DecentralizedMultiAgent.execute_task app st task
        context).2.agents = N * R * T ∧
    (DecentralizedMultiAgent.execute_task app st task context).2.tokens_used =
      N * R * M * (N - 1) := by
  unfold DecentralizedMultiAgent.execute_task peerToPeerCoordination
  dsimp only
  have h := foldl_exact
    (fun q : DecentralizedState F × List (TaskResult F) =>
      q.1.num_agents = N ∧ q.1.agents.length = N ∧
        q.1.capabilities = caps ∧ ∀ ag ∈ q.1.agents, ag.capabilities = caps)
    (fun q => agentsTokens q.1.agents) (fun q => q.1.tokens_used)
    (fun acc roundIdx =>
      (List.range acc.1.agents.length).foldl (peerStep app task context roundIdx) acc)
    (fun _ => True)
    (N * capGet caps "tokens_per_task" 100)
    (N * (capGet caps "communication_tokens_per_message" 5 * (N - 1)))
    (fun q i _ hInv => peerRound_exact app task context N caps hsucc q i hInv)
    (List.range (capGet st.capabilities "coordination_rounds" 2))
    ({ st with shared_messages := [] }, [])
    (fun _ _ => trivial)
    ⟨hinv.1, hinv.2.1, hinv.2.2.1, hinv.2.2.2⟩
  have ha := consensusAggregation_tokens
    ((List.range (capGet st.capabilities "coordination_rounds" 2)).foldl
      (fun acc roundIdx =>
        (List.range acc.1.agents.length).foldl (peerStep app task context roundIdx) acc)
      ({ st with shared_messages := [] }, [])).1
    ((List.range (capGet st.capabilities "coordination_rounds" 2)).foldl
      (fun acc roundIdx =>
        (List.range acc.1.agents.length).foldl (peerStep app task context roundIdx) acc)
      ({ st with shared_messages := [] }, [])).2
  rw [ha.2.1, ha.2.2]
  dsimp only at h
  rw [List.length_range] at h
  have hstR : capGet st.capabilities "coordination_rounds" 2 = R := by
    rw [hinv.2.2.1]; exact hR
  constructor
  · rw [h.2.1, hz1, hstR, hT]
    ring
  · rw [h.2.2, hz2, hstR, hM]
    ring

/-- C6: a fresh decentralized composite with `N` peers,
`coordination_rounds = R`, `communication_tokens_per_message = M` and
per-task cost `T`, run once on an always-succeeding task, ends with
exactly `N*R*T` agent-side tokens and exactly `N*R*M*(N-1)`
communication-overhead tokens (one broadcast charged per successful
per-round execution). -/
theorem C6_decentralized_token_accounting :
    ∀ (F : Type) (app : App F) (id : String) (N R M T : Nat) (task : PyVal F)
      (context : Option (Ctx F)),
      alwaysSucceeds app task →
      agentsTokens (DecentralizedMultiAgent.execute_task app
          (initDecentralized id N
            [("coordination_rounds", R), ("communication_tokens_per_message", M),
              ("tokens_per_task", T)])
          task context).2.agents = N * R * T ∧
      (DecentralizedMultiAgent.execute_task app
          (initDecentralized id N
            [("coordination_rounds", R), ("communication_tokens_per_message", M),
              ("tokens_per_task", T)])
          task context).2.tokens_used = N * R * M * (N - 1) := by
  intro F app id N R M T task context hsucc
  refine decentralizedTotals app task context N R M T
    [("coordination_rounds", R), ("communication_tokens_per_message", M),
      ("tokens_per_task", T)]
    (initDecentralized id N
      [("coordination_rounds", R), ("communication_tokens_per_message", M),
        ("tokens_per_task", T)])
    hsucc rfl rfl rfl ⟨rfl, by simp [initDecentralized], rfl, ?_⟩ ?_ rfl
  · intro ag hag
    simp only [initDecentralized, List.mem_map] at hag
    obtain ⟨j, _, rfl⟩ := hag
    rfl
  · refine List.sum_eq_zero ?_
    intro x hx
    simp only [initDecentralized, agentsTokens, List.map_map, List.mem_map] at hx
    obtain ⟨j, _, rfl⟩ := hx
    rfl

/-- Witness for C6 at the spec's §8 concrete decentralized scenario:
3 peers, 1 round, `M = 2`, `T = 10` give agent total 30 and
communication overhead 12. -/
theorem C6_decentralized_token_accounting_witness :
    alwaysSucceeds noFunApp (PyVal.vstr "x") ∧
    agentsTokens (DecentralizedMultiAgent.execute_task noFunApp
        (initDecentralized "decentralized_system" 3
          [("coordination_rounds", 1), ("communication_tokens_per_message", 2),
            ("tokens_per_task", 10)])
        (PyVal.vstr "x") none).2.agents = 30 ∧
    (DecentralizedMultiAgent.execute_task noFunApp
        (initDecentralized "decentralized_system" 3
          [("coordination_rounds", 1), ("communication_tokens_per_message", 2),
            ("tokens_per_task", 10)])
        (PyVal.vstr "x") none).2.tokens_used = 12 :=
  ⟨fun _ => ⟨PyVal.vstr "x", rfl⟩,
    (C6_decentralized_token_accounting Empty noFunApp "decentralized_system"
      3 1 2 10 (PyVal.vstr "x") none (fun _ => ⟨PyVal.vstr "x", rfl⟩)).1,
    (C6_decentralized_token_accounting Empty noFunApp "decentralized_system"
      3 1 2 10 (PyVal.vstr "x") none (fun _ => ⟨PyVal.vstr "x", rfl⟩)).2⟩

/-- Spelling out `isTopScore` over the five enumerated entries. -/
theorem isTopScore_iff (a : Arch) (t : TaskCharacteristics)
    (c : AgentCapabilities) :
    isTopScore a t c ↔
      calculate_architecture_score .single t c ≤ calculate_architecture_score a t c ∧
      calculate_architecture_score .independent t c ≤ calculate_architecture_score a t c ∧
      calculate_architecture_score .centralized t c ≤ calculate_architecture_score a t c ∧
      calculate_architecture_score .decentralized t c ≤ calculate_architecture_score a t c ∧
      calculate_architecture_score .hybrid t c ≤ calculate_architecture_score a t c := by
  simp [isTopScore, predict_all_scores, archOrder]

/-- If every other architecture scores at most `single`, the spec-side
first-argmax is `single`. -/
theorem specEq_single {t : TaskCharacteristics} {c : AgentCapabilities}
    (h2 : calculate_architecture_score .independent t c ≤ calculate_architecture_score .single t c)
    (h3 : calculate_architecture_score .centralized t c ≤ calculate_architecture_score .single t c)
    (h4 : calculate_architecture_score .decentralized t c ≤ calculate_architecture_score .single t c)
    (h5 : calculate_architecture_score .hybrid t c ≤ calculate_architecture_score .single t c) :
    selectSpecFirstArgmax t c = .single := by
  unfold selectSpecFirstArgmax
  rw [if_pos ((isTopScore_iff _ t c).mpr ⟨le_refl _, h2, h3, h4, h5⟩)]

/-- First-argmax characterization for `independent`. -/
theorem specEq_independent {t : TaskCharacteristics} {c : AgentCapabilities}
    (h1 : calculate_architecture_score .single t c < calculate_architecture_score .independent t c)
    (h3 : calculate_architecture_score .centralized t c ≤ calculate_architecture_score .independent t c)
    (h4 : calculate_architecture_score .decentralized t c ≤ calculate_architecture_score .independent t c)
    (h5 : calculate_architecture_score .hybrid t c ≤ calculate_architecture_score .independent t c) :
    selectSpecFirstArgmax t c = .independent := by
  unfold selectSpecFirstArgmax
  rw [if_neg (fun htop => absurd ((isTopScore_iff _ t c).mp htop).2.1 (not_le.mpr h1)),
    if_pos ((isTopScore_iff _ t c).mpr ⟨le_of_lt h1, le_refl _, h3, h4, h5⟩)]

/-- First-argmax characterization for `centralized`. -/
theorem specEq_centralized {t : TaskCharacteristics} {c : AgentCapabilities}
    (h1 : calculate_architecture_score .single t c < calculate_architecture_score .centralized t c)
    (h2 : calculate_architecture_score .independent t c < calculate_architecture_score .centralized t c)
    (h4 : calculate_architecture_score .decentralized t c ≤ calculate_architecture_score .centralized t c)
    (h5 : calculate_architecture_score .hybrid t c ≤ calculate_architecture_score .centralized t c) :
    selectSpecFirstArgmax t c = .centralized := by
  unfold selectSpecFirstArgmax
  rw [if_neg (fun htop => absurd ((isTopScore_iff _ t c).mp htop).2.2.1 (not_le.mpr h1)),
    if_neg (fun htop => absurd ((isTopScore_iff _ t c).mp htop).2.2.1 (not_le.mpr h2)),
    if_pos ((isTopScore_iff _ t c).mpr ⟨le_of_lt h1, le_of_lt h2, le_refl _, h4, h5⟩)]

/-- First-argmax characterization for `decentralized`. -/
theorem specEq_decentralized {t : TaskCharacteristics} {c : AgentCapabilities}
    (h1 : calculate_architecture_score .single t c < calculate_architecture_score .decentralized t c)
    (h2 : calculate_architecture_score .independent t c < calculate_architecture_score .decentralized t c)
    (h3 : calculate_architecture_score .centralized t c < calculate_architecture_score .decentralized t c)
    (h5 : calculate_architecture_score .hybrid t c ≤ calculate_architecture_score .decentralized t c) :
    selectSpecFirstArgmax t c = .decentralized := by
  unfold selectSpecFirstArgmax
  rw [if_neg (fun htop => absurd ((isTopScore_iff _ t c).mp htop).2.2.2.1 (not_le.mpr h1)),
    if_neg (fun htop => absurd ((isTopScore_iff _ t c).mp htop).2.2.2.1 (not_le.mpr h2)),
    if_neg (fun htop => absurd ((isTopScore_iff _ t c).mp htop).2.2.2.1 (not_le.mpr h3)),
    if_pos ((isTopScore_iff _ t c).mpr ⟨le_of_lt h1, le_of_lt h2, le_of_lt h3, le_refl _, h5⟩)]

/-- First-argmax characterization for `hybrid`. -/
theorem specEq_hybrid {t : TaskCharacteristics} {c : AgentCapabilities}
    (h1 : calculate_architecture_score .single t c < calculate_architecture_score .hybrid t c)
    (h2 : calculate_architecture_score .independent t c < calculate_architecture_score .hybrid t c)
    (h3 : calculate_architecture_score .centralized t c < calculate_architecture_score .hybrid t c)
    (h4 : calculate_architecture_score .decentralized t c < calculate_architecture_score .hybrid t c) :
    selectSpecFirstArgmax t c = .hybrid := by
  unfold selectSpecFirstArgmax
  rw [if_neg (fun htop => absurd ((isTopScore_iff _ t c).mp htop).2.2.2.2 (not_le.mpr h1)),
    if_neg (fun htop => absurd ((isTopScore_iff _ t c).mp htop).2.2.2.2 (not_le.mpr h2)),
    if_neg (fun htop => absurd ((isTopScore_iff _ t c).mp htop).2.2.2.2 (not_le.mpr h3)),
    if_neg (fun htop => absurd ((isTopScore_iff _ t c).mp htop).2.2.2.2 (not_le.mpr h4))]

/-- C4: `select_architecture` returns exactly the spec-side first
arg-max of the scores computed by `predict_all_scores` (ties broken by
the enumeration order single, independent, centralized, decentralized,
hybrid — Python's `max` keeps the first maximal element), and
`predict_all_scores` is the enumeration-ordered score table. -/
theorem C4_select_is_first_argmax :
    ∀ (t : TaskCharacteristics) (c : AgentCapabilities),
      select_architecture t c = selectSpecFirstArgmax t c ∧
      predict_all_scores t c =
        archOrder.map (fun a => (a, calculate_architecture_score a t c)) := by
  intro t c
  refine ⟨?_, rfl⟩
  unfold select_architecture predict_all_scores archOrder
  dsimp only [List.map, List.foldl]
  rcases lt_or_le (calculate_architecture_score .single t c)
      (calculate_architecture_score .independent t c) with h12 | h12
  · rw [if_pos h12]
    dsimp only
    rcases lt_or_le (calculate_architecture_score .independent t c)
        (calculate_architecture_score .centralized t c) with h23 | h23
    · rw [if_pos h23]
      dsimp only
      rcases lt_or_le (calculate_architecture_score .centralized t c)
          (calculate_architecture_score .decentralized t c) with h34 | h34
      · rw [if_pos h34]
        dsimp only
        rcases lt_or_le (calculate_architecture_score .decentralized t c)
            (calculate_architecture_score .hybrid t c) with h45 | h45
        · rw [if_pos h45]
          exact (specEq_hybrid (by linarith) (by linarith) (by linarith) h45).symm
        · rw [if_neg (not_lt.mpr h45)]
          exact (specEq_decentralized (by linarith) (by linarith) h34 h45).symm
      · rw [if_neg (not_lt.mpr h34)]
        dsimp only
        rcases lt_or_le (calculate_architecture_score .centralized t c)
            (calculate_architecture_score .hybrid t c) with h35 | h35
        · rw [if_pos h35]
          exact (specEq_hybrid (by linarith) (by linarith) h35 (by linarith)).symm
        · rw [if_neg (not_lt.mpr h35)]
          exact (specEq_centralized (by linarith) h23 h34 h35).symm
    · rw [if_neg (not_lt.mpr h23)]
      dsimp only
      rcases lt_or_le (calculate_architecture_score .independent t c)
          (calculate_architecture_score .decentralized t c) with h24 | h24
      · rw [if_pos h24]
        dsimp only
        rcases lt_or_le (calculate_architecture_score .decentralized t c)
            (calculate_architecture_score .hybrid t c) with h45 | h45
        · rw [if_pos h45]
          exact (specEq_hybrid (by linarith) (by linarith) (by linarith) h45).symm
        · rw [if_neg (not_lt.mpr h45)]
          exact (specEq_decentralized (by linarith) h24 (by linarith) h45).symm
      · rw [if_neg (not_lt.mpr h24)]
        dsimp only
        rcases lt_or_le (calculate_architecture_score .independent t c)
            (calculate_architecture_score .hybrid t c) with h25 | h25
        · rw [if_pos h25]
          exact (specEq_hybrid (by linarith) h25 (by linarith) (by linarith)).symm
        · rw [if_neg (not_lt.mpr h25)]
          exact (specEq_independent h12 h23 h24 h25).symm
  · rw [if_neg (not_lt.mpr h12)]
    dsimp only
    rcases lt_or_le (calculate_architecture_score .single t c)
        (calculate_architecture_score .centralized t c) with h13 | h13
    · rw [if_pos h13]
      dsimp only
      rcases lt_or_le (calculate_architecture_score .centralized t c)
          (calculate_architecture_score .decentralized t c) with h34 | h34
      · rw [if_pos h34]
        dsimp only
        rcases lt_or_le (calculate_architecture_score .decentralized t c)
            (calculate_architecture_score .hybrid t c) with h45 | h45
        · rw [if_pos h45]
          exact (specEq_hybrid (by linarith) (by linarith) (by linarith) h45).symm
        · rw [if_neg (not_lt.mpr h45)]
          exact (specEq_decentralized (by linarith) (by linarith) h34 h45).symm
      · rw [if_neg (not_lt.mpr h34)]
        dsimp only
        rcases lt_or_le (calculate_architecture_score .centralized t c)
            (calculate_architecture_score .hybrid t c) with h35 | h35
        · rw [if_pos h35]
          exact (specEq_hybrid (by linarith) (by linarith) h35 (by linarith)).symm
        · rw [if_neg (not_lt.mpr h35)]
          exact (specEq_centralized h13 (by linarith) h34 h35).symm
    · rw [if_neg (not_lt.mpr h13)]
      dsimp only
      rcases lt_or_le (calculate_architecture_score .single t c)
          (calculate_architecture_score .decentralized t c) with h14 | h14
      · rw [if_pos h14]
        dsimp only
        rcases lt_or_le (calculate_architecture_score .decentralized t c)
            (calculate_architecture_score .hybrid t c) with h45 | h45
        · rw [if_pos h45]
          exact (specEq_hybrid (by linarith) (by linarith) (by linarith) h45).symm
        · rw [if_neg (not_lt.mpr h45)]
          exact (specEq_decentralized h14 (by linarith) (by linarith) h45).symm
      · rw [if_neg (not_lt.mpr h14)]
        dsimp only
        rcases lt_or_le (calculate_architecture_score .single t c)
            (calculate_architecture_score .hybrid t c) with h15 | h15
        · rw [if_pos h15]
          exact (specEq_hybrid h15 (by linarith) (by linarith) (by linarith)).symm
        · rw [if_neg (not_lt.mpr h15)]
          exact (specEq_single h12 h13 h14 h15).symm

/-- C3: for a fixed task profile and fixed `token_budget` and
`model_capability` (in its documented range `[0,1]`, here only
non-negativity is needed), the score of every non-single architecture is
non-increasing in `baseline_accuracy` over the range above the
saturation threshold `0.45`. -/
theorem C3_saturation_monotonicity :
    ∀ (t : TaskCharacteristics) (c1 c2 : AgentCapabilities) (arch : Arch),
      arch ≠ Arch.single →
      c1.token_budget = c2.token_budget →
      c1.model_capability = c2.model_capability →
      0 ≤ c1.model_capability →
      (45/100 : ℚ) < c1.baseline_accuracy →
      c1.baseline_accuracy ≤ c2.baseline_accuracy →
      calculate_architecture_score arch t c2 ≤
        calculate_architecture_score arch t c1 := by
  intro t c1 c2 arch hns hb hm hm0 h45 hacc
  have h45b : (45/100 : ℚ) < c2.baseline_accuracy := lt_of_lt_of_le h45 hacc
  have haccR : ((c1.baseline_accuracy : ℚ) : ℝ) ≤ ((c2.baseline_accuracy : ℚ) : ℝ) := by
    exact_mod_cast hacc
  have hscale : (0 : ℝ) ≤ 8/10 + (4/10 : ℝ) * (c1.model_capability : ℚ) := by
    have : (0 : ℝ) ≤ ((c1.model_capability : ℚ) : ℝ) := by exact_mod_cast hm0
    linarith
  cases arch with
  | single => exact absurd rfl hns
  | independent =>
      unfold calculate_architecture_score
      dsimp only
      rw [if_pos h45, if_pos h45b,
        if_pos (by decide : Arch.independent ≠ Arch.single),
        if_pos (by decide : Arch.independent ≠ Arch.single), ← hm]
      by_cases hbud : c1.token_budget < 1000
      · rw [if_pos ⟨hb ▸ hbud, by decide⟩, if_pos ⟨hbud, by decide⟩]
        apply mul_le_mul_of_nonneg_right _ hscale
        linarith
      · rw [if_neg (fun hx => hbud (hb.symm ▸ hx.1)), if_neg (fun hx => hbud hx.1)]
        apply mul_le_mul_of_nonneg_right _ hscale
        linarith
  | centralized =>
      unfold calculate_architecture_score
      dsimp only
      rw [if_pos h45, if_pos h45b,
        if_pos (by decide : Arch.centralized ≠ Arch.single),
        if_pos (by decide : Arch.centralized ≠ Arch.single), ← hm]
      by_cases hbud : c1.token_budget < 1000
      · rw [if_pos ⟨hb ▸ hbud, by decide⟩, if_pos ⟨hbud, by decide⟩]
        apply mul_le_mul_of_nonneg_right _ hscale
        linarith
      · rw [if_neg (fun hx => hbud (hb.symm ▸ hx.1)), if_neg (fun hx => hbud hx.1)]
        apply mul_le_mul_of_nonneg_right _ hscale
        linarith
  | decentralized =>
      unfold calculate_architecture_score
      dsimp only
      rw [if_pos h45, if_pos h45b,
        if_pos (by decide : Arch.decentralized ≠ Arch.single),
        if_pos (by decide : Arch.decentralized ≠ Arch.single), ← hm]
      by_cases hseq : (6/10 : ℚ) < t.sequential
      · rw [if_pos hseq, if_pos hseq]
        by_cases hbud : c1.token_budget < 1000
        · rw [if_pos ⟨hb ▸ hbud, by decide⟩, if_pos ⟨hbud, by decide⟩]
          apply mul_le_mul_of_nonneg_right _ hscale
          linarith
        · rw [if_neg (fun hx => hbud (hb.symm ▸ hx.1)), if_neg (fun hx => hbud hx.1)]
          apply mul_le_mul_of_nonneg_right _ hscale
          linarith
      · rw [if_neg hseq, if_neg hseq]
        by_cases hbud : c1.token_budget < 1000
        · rw [if_pos ⟨hb ▸ hbud, by decide⟩, if_pos ⟨hbud, by decide⟩]
          apply mul_le_mul_of_nonneg_right _ hscale
          linarith
        · rw [if_neg (fun hx => hbud (hb.symm ▸ hx.1)), if_neg (fun hx => hbud hx.1)]
          apply mul_le_mul_of_nonneg_right _ hscale
          linarith
  | hybrid =>
      unfold calculate_architecture_score
      dsimp only
      rw [if_pos h45, if_pos h45b,
        if_pos (by decide : Arch.hybrid ≠ Arch.single),
        if_pos (by decide : Arch.hybrid ≠ Arch.single), ← hm]
      by_cases hbud : c1.token_budget < 1000
      · rw [if_pos ⟨hb ▸ hbud, by decide⟩, if_pos ⟨hbud, by decide⟩]
        apply mul_le_mul_of_nonneg_right _ hscale
        linarith
      · rw [if_neg (fun hx => hbud (hb.symm ▸ hx.1)), if_neg (fun hx => hbud hx.1)]
        apply mul_le_mul_of_nonneg_right _ hscale
        linarith

/-- Witness for C3 at a concrete saturated pair of accuracies (0.5 and
0.6) for the centralized architecture. -/
theorem C3_saturation_monotonicity_witness :
    Arch.centralized ≠ Arch.single ∧
    (45/100 : ℚ) < 1/2 ∧ (1/2 : ℚ) ≤ 3/5 ∧ (0 : ℚ) ≤ 1/2 ∧
    calculate_architecture_score .centralized
        (TaskCharacteristics.mk (1/2) (1/2) (1/2) (1/2) (1/2))
        (AgentCapabilities.mk (3/5) 10000 (1/2)) ≤
      calculate_architecture_score .centralized
        (TaskCharacteristics.mk (1/2) (1/2) (1/2) (1/2) (1/2))
        (AgentCapabilities.mk (1/2) 10000 (1/2)) :=
  ⟨by decide, by norm_num, by norm_num, by norm_num,
    C3_saturation_monotonicity
      (TaskCharacteristics.mk (1/2) (1/2) (1/2) (1/2) (1/2))
      (AgentCapabilities.mk (1/2) 10000 (1/2))
      (AgentCapabilities.mk (3/5) 10000 (1/2))
      Arch.centralized (by decide) rfl rfl (by norm_num) (by norm_num) (by norm_num)⟩
